import Mathlib

/-!
# RWLock: a re-entrant reader/writer spin lock

Shallow embedding of `ConcurrencyAndParallelism/RWLock/RWLock.h` and `RWLock.cpp`.

* `std::atomic<uint64_t> _lockState` is a natural number below `2 ^ 64`, the high 32 bits
  holding the owning thread id and the low 32 bits the shared (read) count.
* `uint32_t _writeCnt` is a natural number below `2 ^ 32`.
* `thread_local uint32_t tls_threadID` is passed to every operation as an argument.
* `exit(-1)` after a diagnostic message is the outcome `Outcome.abort`, which records which
  diagnostic was printed and the lock object as it was at that moment.
* `my_clock_t::now() - startTP`, converted to milliseconds, is read from an input function
  `clock`: `clock r` is the interval measured after spin round `r`.
* Other threads act on the lock between the atomic accesses of a retry loop.  The retry loops
  therefore read the lock from an input function `env`: `env i` is the lock object as the `i`-th
  atomic access of the loop finds it.  A call that runs alone has a constant `env`.
* The `while (true)` loops take `fuel`, the number of spin rounds the model may run; `none`
  means that the call is still spinning when the fuel is used up.
-/

set_option linter.unusedVariables false

/-- Diagnostics after which the program is terminated with `exit(-1)`. -/
inductive Violation where
  /-- The text "TimeOut" was printed. -/
  | AcquisitionTimeout
  /-- The text "Unlock Order Mismatch" was printed. -/
  | UnlockOrderViolation
  /-- The text "ReadUnlock Under Zero" was printed. -/
  | ReadUnderflow
  deriving DecidableEq, Repr

/-- The data members of `class RWLock`. -/
structure RWLock where
  /-- The member `std::atomic<uint64_t> _lockState`. -/
  _lockState : Nat
  /-- The member `uint32_t _writeCnt`. -/
  _writeCnt : Nat
  deriving DecidableEq, Repr

/-- Result of a call: it returned (`ok`, with the lock afterwards and the number of
`compare_exchange_strong` calls it made), or the process was terminated (`abort`). -/
inductive Outcome where
  | ok (s : RWLock) (cas : Nat)
  | abort (v : Violation) (s : RWLock)
  deriving DecidableEq, Repr

/-- The lock object at the end of a call, whether the call returned or the process was
terminated. -/
def Outcome.lock : Outcome → RWLock
  | Outcome.ok s _ => s
  | Outcome.abort _ s => s

namespace RWLock

/-- Enumerator `kMaxTimeWait = 10'000`. -/
def kMaxTimeWait : Nat := 10000

/-- Enumerator `kMaxSpinCount = 5000`. -/
def kMaxSpinCount : Nat := 5000

/-- Enumerator `kWriteOwnerThreadMask`: the high 32 bits. -/
def kWriteOwnerThreadMask : Nat := 0xFFFFFFFF00000000

/-- Enumerator `kReadSharedCountMask`: the low 32 bits. -/
def kReadSharedCountMask : Nat := 0x00000000FFFFFFFF

/-- Enumerator `kEmptyState`. -/
def kEmptyState : Nat := 0x0000000000000000

/-- A default-constructed lock: `_lockState = kEmptyState`, `_writeCnt = 0`. -/
def empty : RWLock := { _lockState := kEmptyState, _writeCnt := 0 }

/-- Operation `std::atomic<uint64_t>::load`. -/
def load (cur : Nat) : Nat := cur

/-- Operation `compare_exchange_strong(expected, desired)` on a word holding `cur`:
whether it succeeded, and the word afterwards. -/
def compare_exchange_strong (cur expected desired : Nat) : Bool × Nat :=
  if cur = expected then (true, desired) else (false, cur)

/-- Operation `fetch_add(arg)` on a 64-bit word holding `cur`: the value returned (the old
one) and the word afterwards. -/
def fetch_add (cur arg : Nat) : Nat × Nat :=
  (cur, (cur + arg) % 2 ^ 64)

/-- Operation `fetch_sub(arg)` on a 64-bit word holding `cur`: the value returned (the old
one) and the word afterwards. -/
def fetch_sub (cur arg : Nat) : Nat × Nat :=
  (cur, (cur + (2 ^ 64 - arg % 2 ^ 64)) % 2 ^ 64)

/-- The expression `(_lockState.load() & kWriteOwnerThreadMask) >> 32`, converted to
`uint32_t`: the owner field of a state word. -/
def lockOwnerID (w : Nat) : Nat :=
  ((load w &&& kWriteOwnerThreadMask) >>> 32) % 2 ^ 32

/-- The expression `_lockState.load() & kReadSharedCountMask`: the shared-count field of a
state word. -/
def sharedCount (w : Nat) : Nat :=
  load w &&& kReadSharedCountMask

/-- One pass through the body of the inner `for` loop of `WriteLock` on the lock `s`: whether
the compare-and-swap succeeded (the call then returns), and the lock afterwards. -/
def WriteLock.attempt (desired : Nat) (s : RWLock) : Bool × RWLock :=
  let expected := kEmptyState
  match compare_exchange_strong s._lockState expected desired with
  | (true, w) => (true, { _lockState := w, _writeCnt := (s._writeCnt + 1) % 2 ^ 32 })
  | (false, w) => (false, { s with _lockState := w })

/-- The inner `for` loop of `WriteLock`: `n` more attempts, the next one being attempt number
`i` of the call. -/
def WriteLock.spin (desired : Nat) (env : Nat → RWLock) : Nat → Nat → Option Outcome
  | 0, _ => none
  | n + 1, i =>
    match WriteLock.attempt desired (env i) with
    | (true, s') => some (Outcome.ok s' (i + 1))
    | (false, _) => WriteLock.spin desired env n (i + 1)

/-- The `while (true)` loop of `WriteLock`, from spin round `r` on. -/
def WriteLock.loop (desired : Nat) (clock : Nat → Nat) (env : Nat → RWLock) :
    Nat → Nat → Option Outcome
  | 0, _ => none
  | fuel + 1, r =>
    match WriteLock.spin desired env kMaxSpinCount (r * kMaxSpinCount) with
    | some out => some out
    | none =>
      let interval := clock r
      if interval ≥ kMaxTimeWait then
        some (Outcome.abort Violation.AcquisitionTimeout (env (r * kMaxSpinCount + (kMaxSpinCount - 1))))
      else
        WriteLock.loop desired clock env fuel (r + 1)

/-- Method `RWLock::WriteLock`, called by thread `tls_threadID` on the lock `s`. -/
def WriteLock (tls_threadID : Nat) (clock : Nat → Nat) (env : Nat → RWLock) (fuel : Nat)
    (s : RWLock) : Option Outcome :=
  if tls_threadID = lockOwnerID s._lockState then
    some (Outcome.ok { s with _writeCnt := (s._writeCnt + 1) % 2 ^ 32 } 0)
  else
    let desired := ((tls_threadID <<< 32) % 2 ^ 64) &&& kWriteOwnerThreadMask
    WriteLock.loop desired clock env fuel 0

/-- Method `RWLock::WriteUnlock`. -/
def WriteUnlock (tls_threadID : Nat) (s : RWLock) : Outcome :=
  if 0 ≠ sharedCount s._lockState then
    Outcome.abort Violation.UnlockOrderViolation s
  else
    let writeCnt := (s._writeCnt + (2 ^ 32 - 1)) % 2 ^ 32
    if 0 = writeCnt then
      Outcome.ok { _lockState := kEmptyState, _writeCnt := writeCnt } 0
    else
      Outcome.ok { s with _writeCnt := writeCnt } 0

/-- One pass through the body of the inner `for` loop of `ReadLock`: `wLoad` is the word that
`_lockState.load()` returns and `wCas` the word that `compare_exchange_strong` finds. -/
def ReadLock.attempt (wLoad wCas : Nat) : Bool × Nat :=
  let expected := sharedCount wLoad
  let desired := (expected + 1) % 2 ^ 64
  compare_exchange_strong wCas expected desired

/-- The inner `for` loop of `ReadLock`: `n` more attempts, the next one being attempt number
`i` of the call; attempt `i` makes the atomic accesses `2 * i` and `2 * i + 1`. -/
def ReadLock.spin (env : Nat → RWLock) : Nat → Nat → Option Outcome
  | 0, _ => none
  | n + 1, i =>
    match ReadLock.attempt (env (2 * i))._lockState (env (2 * i + 1))._lockState with
    | (true, w) => some (Outcome.ok { env (2 * i + 1) with _lockState := w } (i + 1))
    | (false, _) => ReadLock.spin env n (i + 1)

/-- The `while (true)` loop of `ReadLock`, from spin round `r` on. -/
def ReadLock.loop (clock : Nat → Nat) (env : Nat → RWLock) : Nat → Nat → Option Outcome
  | 0, _ => none
  | fuel + 1, r =>
    match ReadLock.spin env kMaxSpinCount (r * kMaxSpinCount) with
    | some out => some out
    | none =>
      let interval := clock r
      if interval ≥ kMaxTimeWait then
        some (Outcome.abort Violation.AcquisitionTimeout
          (env (2 * (r * kMaxSpinCount + (kMaxSpinCount - 1)) + 1)))
      else
        ReadLock.loop clock env fuel (r + 1)

/-- Method `RWLock::ReadLock`, called by thread `tls_threadID` on the lock `s`. -/
def ReadLock (tls_threadID : Nat) (clock : Nat → Nat) (env : Nat → RWLock) (fuel : Nat)
    (s : RWLock) : Option Outcome :=
  if tls_threadID = lockOwnerID s._lockState then
    some (Outcome.ok { s with _lockState := (fetch_add s._lockState 1).2 } 0)
  else
    ReadLock.loop clock env fuel 0

/-- Method `RWLock::ReadUnlock`. -/
def ReadUnlock (tls_threadID : Nat) (s : RWLock) : Outcome :=
  let r := fetch_sub s._lockState 1
  if 0 = (r.1 &&& kReadSharedCountMask) then
    Outcome.abort Violation.ReadUnderflow { s with _lockState := r.2 }
  else
    Outcome.ok { s with _lockState := r.2 } 0

/-- A call of one of the four methods by a thread. -/
inductive Op where
  | WriteLock (tid : Nat)
  | WriteUnlock (tid : Nat)
  | ReadLock (tid : Nat)
  | ReadUnlock (tid : Nat)
  deriving DecidableEq, Repr

/-- One call that runs with no other thread touching the lock meanwhile. -/
def step (clock : Nat → Nat) (fuel : Nat) (op : Op) (s : RWLock) : Option Outcome :=
  match op with
  | Op.WriteLock t => WriteLock t clock (fun _ => s) fuel s
  | Op.WriteUnlock t => some (WriteUnlock t s)
  | Op.ReadLock t => ReadLock t clock (fun _ => s) fuel s
  | Op.ReadUnlock t => some (ReadUnlock t s)

/-- A sequence of calls, one after the other; `c` counts the `compare_exchange_strong` calls
made so far.  The run ends at the first call that does not return. -/
def run (clock : Nat → Nat) (fuel : Nat) : List Op → RWLock → Nat → Option Outcome
  | [], s, c => some (Outcome.ok s c)
  | op :: ops, s, c =>
    match step clock fuel op s with
    | some (Outcome.ok s' c') => run clock fuel ops s' (c + c')
    | r => r

/-- The lock has no owner exactly when no write acquisition is counted: the owner field of
`_lockState` is `0` if and only if `_writeCnt` is `0`. -/
def ownerDepthConsistent (s : RWLock) : Prop :=
  lockOwnerID s._lockState = 0 ↔ s._writeCnt = 0

instance (s : RWLock) : Decidable (ownerDepthConsistent s) := by
  unfold ownerDepthConsistent
  exact inferInstance

end RWLock

namespace RWLock

/-! ## The two fields of the state word -/

theorem lockOwnerID_eq (w : Nat) : lockOwnerID w = (w / 2 ^ 32) % 2 ^ 32 := by
  have h : (w &&& 0xFFFFFFFF00000000) >>> 32 = (w >>> 32) &&& (2 ^ 32 - 1) := by
    apply Nat.eq_of_testBit_eq
    intro j
    have hm : (0xFFFFFFFF00000000 : Nat) = (2 ^ 32 - 1) <<< 32 := by decide
    rw [Nat.testBit_shiftRight, Nat.testBit_and, Nat.testBit_and, Nat.testBit_shiftRight, hm,
      Nat.testBit_shiftLeft]
    simp
  unfold lockOwnerID load kWriteOwnerThreadMask
  rw [h, Nat.and_pow_two_sub_one_eq_mod, Nat.shiftRight_eq_div_pow, Nat.mod_mod]

theorem sharedCount_eq (w : Nat) : sharedCount w = w % 2 ^ 32 := by
  have h : (0x00000000FFFFFFFF : Nat) = 2 ^ 32 - 1 := by decide
  unfold sharedCount load kReadSharedCountMask
  rw [h, Nat.and_pow_two_sub_one_eq_mod]

theorem desired_eq (t : Nat) (ht : t < 2 ^ 32) :
    ((t <<< 32) % 2 ^ 64) &&& kWriteOwnerThreadMask = t * 2 ^ 32 := by
  have h1 : (t <<< 32) % 2 ^ 64 = t <<< 32 := by
    rw [Nat.shiftLeft_eq]; apply Nat.mod_eq_of_lt; omega
  rw [h1]
  apply Nat.eq_of_testBit_eq
  intro j
  have hm : kWriteOwnerThreadMask = (2 ^ 32 - 1) <<< 32 := by decide
  rw [Nat.testBit_and, hm, ← Nat.shiftLeft_eq, Nat.testBit_shiftLeft, Nat.testBit_shiftLeft,
    Nat.testBit_two_pow_sub_one]
  by_cases hj : j ≥ 32
  · by_cases hj2 : j - 32 < 32
    · simp [hj, hj2]
    · have : t.testBit (j - 32) = false := by
        apply Nat.testBit_lt_two_pow
        calc t < 2 ^ 32 := ht
          _ ≤ 2 ^ (j - 32) := Nat.pow_le_pow_right (by decide) (by omega)
      simp [this]
  · simp [hj]

theorem lockOwnerID_pack (o c : Nat) (ho : o < 2 ^ 32) (hc : c < 2 ^ 32) :
    lockOwnerID (o * 2 ^ 32 + c) = o := by
  rw [lockOwnerID_eq]; omega

theorem sharedCount_pack (o c : Nat) (hc : c < 2 ^ 32) :
    sharedCount (o * 2 ^ 32 + c) = c := by
  rw [sharedCount_eq]; omega

theorem word_eq_pack (w : Nat) (hw : w < 2 ^ 64) :
    w = lockOwnerID w * 2 ^ 32 + sharedCount w := by
  rw [lockOwnerID_eq, sharedCount_eq]; omega

theorem lockOwnerID_lt (w : Nat) : lockOwnerID w < 2 ^ 32 := by
  rw [lockOwnerID_eq]; omega

theorem sharedCount_lt (w : Nat) : sharedCount w < 2 ^ 32 := by
  rw [sharedCount_eq]; omega

/-! ## The retry loops -/

theorem WriteLock_spin_fail (d : Nat) (env : Nat → RWLock) (n i : Nat)
    (h : ∀ j, i ≤ j → j < i + n → (env j)._lockState ≠ kEmptyState) :
    WriteLock.spin d env n i = none := by
  induction n generalizing i with
  | zero => rfl
  | succ n ih =>
    have h0 : (env i)._lockState ≠ kEmptyState := h i (Nat.le_refl i) (by omega)
    simp only [WriteLock.spin, WriteLock.attempt, compare_exchange_strong, if_neg h0]
    exact ih (i + 1) (fun j h1 h2 => h j (by omega) (by omega))

theorem WriteLock_spin_first (d : Nat) (env : Nat → RWLock) (n i : Nat)
    (h : (env i)._lockState = kEmptyState) :
    WriteLock.spin d env (n + 1) i
      = some (Outcome.ok { _lockState := d, _writeCnt := ((env i)._writeCnt + 1) % 2 ^ 32 } (i + 1)) := by
  simp only [WriteLock.spin, WriteLock.attempt, compare_exchange_strong, if_pos h]

theorem WriteLock_owner (t : Nat) (clock : Nat → Nat) (env : Nat → RWLock) (fuel : Nat)
    (s : RWLock) (h : t = lockOwnerID s._lockState) :
    WriteLock t clock env fuel s
      = some (Outcome.ok { s with _writeCnt := (s._writeCnt + 1) % 2 ^ 32 } 0) := by
  simp only [WriteLock, if_pos h]

theorem WriteLock_fresh (t : Nat) (ht : t < 2 ^ 32) (clock : Nat → Nat) (env : Nat → RWLock)
    (fuel : Nat) (s : RWLock) (h : t ≠ lockOwnerID s._lockState)
    (h0 : (env 0)._lockState = kEmptyState) :
    WriteLock t clock env (fuel + 1) s
      = some (Outcome.ok { _lockState := t * 2 ^ 32,
                           _writeCnt := ((env 0)._writeCnt + 1) % 2 ^ 32 } 1) := by
  have hs : WriteLock.spin (t * 2 ^ 32) env kMaxSpinCount (0 * kMaxSpinCount)
      = some (Outcome.ok { _lockState := t * 2 ^ 32,
                           _writeCnt := ((env 0)._writeCnt + 1) % 2 ^ 32 } 1) := by
    have := WriteLock_spin_first (t * 2 ^ 32) env 4999 0 h0
    simpa [kMaxSpinCount] using this
  simp only [WriteLock, if_neg h, desired_eq t ht, WriteLock.loop, hs]

theorem WriteLock_loop_round (d : Nat) (clock : Nat → Nat) (env : Nat → RWLock) (fuel r : Nat)
    (h : ∀ i, (env i)._lockState ≠ kEmptyState) :
    WriteLock.loop d clock env (fuel + 1) r
      = if clock r ≥ kMaxTimeWait then
          some (Outcome.abort Violation.AcquisitionTimeout
            (env (r * kMaxSpinCount + (kMaxSpinCount - 1))))
        else WriteLock.loop d clock env fuel (r + 1) := by
  have hs := WriteLock_spin_fail d env kMaxSpinCount (r * kMaxSpinCount) (fun j _ _ => h j)
  simp only [WriteLock.loop, hs]

theorem WriteLock_loop_never_ok (d : Nat) (clock : Nat → Nat) (env : Nat → RWLock)
    (h : ∀ i, (env i)._lockState ≠ kEmptyState) (fuel r : Nat) (s' : RWLock) (c : Nat) :
    WriteLock.loop d clock env fuel r ≠ some (Outcome.ok s' c) := by
  induction fuel generalizing r with
  | zero => simp [WriteLock.loop]
  | succ fuel ih =>
    rw [WriteLock_loop_round d clock env fuel r h]
    split
    · simp
    · exact ih (r + 1)

theorem WriteLock_loop_spinning (d : Nat) (clock : Nat → Nat) (env : Nat → RWLock)
    (h : ∀ i, (env i)._lockState ≠ kEmptyState) (fuel r : Nat)
    (hc : ∀ q, r ≤ q → q < r + fuel → clock q < kMaxTimeWait) :
    WriteLock.loop d clock env fuel r = none := by
  induction fuel generalizing r with
  | zero => simp [WriteLock.loop]
  | succ fuel ih =>
    have h0 : ¬ (clock r ≥ kMaxTimeWait) := by
      have := hc r (Nat.le_refl r) (by omega)
      omega
    rw [WriteLock_loop_round d clock env fuel r h, if_neg h0]
    exact ih (r + 1) (fun q h1 h2 => hc q (by omega) (by omega))

theorem WriteLock_loop_timeout (d : Nat) (clock : Nat → Nat) (env : Nat → RWLock)
    (h : ∀ i, (env i)._lockState ≠ kEmptyState) (m extra r : Nat)
    (hc : ∀ q, r ≤ q → q < r + m → clock q < kMaxTimeWait)
    (ht : kMaxTimeWait ≤ clock (r + m)) :
    WriteLock.loop d clock env (m + 1 + extra) r
      = some (Outcome.abort Violation.AcquisitionTimeout
          (env ((r + m) * kMaxSpinCount + (kMaxSpinCount - 1)))) := by
  induction m generalizing r with
  | zero =>
    have e : 0 + 1 + extra = extra + 1 := by omega
    rw [e, WriteLock_loop_round d clock env extra r h, if_pos (by simpa using ht)]
    simp
  | succ m ih =>
    have h0 : ¬ (clock r ≥ kMaxTimeWait) := by
      have := hc r (Nat.le_refl r) (by omega)
      omega
    have e : m + 1 + 1 + extra = (m + 1 + extra) + 1 := by omega
    rw [e, WriteLock_loop_round d clock env (m + 1 + extra) r h, if_neg h0,
      ih (r + 1) (fun q h1 h2 => hc q (by omega) (by omega)) (by
        have e2 : r + 1 + m = r + (m + 1) := by omega
        rw [e2]; exact ht)]
    have e3 : r + 1 + m = r + (m + 1) := by omega
    rw [e3]

theorem ReadLock_attempt_fail (wLoad wCas : Nat) (h : lockOwnerID wCas ≠ 0) :
    ReadLock.attempt wLoad wCas = (false, wCas) := by
  have hne : wCas ≠ sharedCount wLoad := by
    intro e
    apply h
    rw [e, lockOwnerID_eq]
    have := sharedCount_lt wLoad
    omega
  simp only [ReadLock.attempt, compare_exchange_strong, if_neg hne]

theorem ReadLock_attempt_ok (w : Nat) (h : lockOwnerID w = 0) (hw : w < 2 ^ 64) :
    ReadLock.attempt w w = (true, w + 1) := by
  have hs : sharedCount w = w := by
    rw [sharedCount_eq]; rw [lockOwnerID_eq] at h; omega
  have hm : (w + 1) % 2 ^ 64 = w + 1 := by
    rw [lockOwnerID_eq] at h; omega
  simp only [ReadLock.attempt, compare_exchange_strong, hs, hm, if_true]

theorem ReadLock_spin_fail_range (env : Nat → RWLock) (n i : Nat)
    (h : ∀ j, i ≤ j → j < i + n → lockOwnerID (env (2 * j + 1))._lockState ≠ 0) :
    ReadLock.spin env n i = none := by
  induction n generalizing i with
  | zero => rfl
  | succ n ih =>
    simp only [ReadLock.spin, ReadLock_attempt_fail _ _ (h i (Nat.le_refl i) (by omega))]
    exact ih (i + 1) (fun j h1 h2 => h j (by omega) (by omega))

theorem ReadLock_spin_hit (env : Nat → RWLock) (n i p w : Nat) (hip : i ≤ p) (hpn : p < i + n)
    (hfail : ∀ j, i ≤ j → j < p → lockOwnerID (env (2 * j + 1))._lockState ≠ 0)
    (hhit : ReadLock.attempt (env (2 * p))._lockState (env (2 * p + 1))._lockState = (true, w)) :
    ReadLock.spin env n i
      = some (Outcome.ok { env (2 * p + 1) with _lockState := w } (p + 1)) := by
  induction n generalizing i with
  | zero => omega
  | succ n ih =>
    by_cases e : i = p
    · subst e
      simp only [ReadLock.spin, hhit]
    · simp only [ReadLock.spin, ReadLock_attempt_fail _ _ (hfail i (Nat.le_refl i) (by omega))]
      exact ih (i + 1) (by omega) (by omega) (fun j h1 h2 => hfail j (by omega) h2)

theorem ReadLock_loop_round_range (clock : Nat → Nat) (env : Nat → RWLock) (fuel r : Nat)
    (h : ∀ j, r * kMaxSpinCount ≤ j → j < r * kMaxSpinCount + kMaxSpinCount →
      lockOwnerID (env (2 * j + 1))._lockState ≠ 0) :
    ReadLock.loop clock env (fuel + 1) r
      = if clock r ≥ kMaxTimeWait then
          some (Outcome.abort Violation.AcquisitionTimeout
            (env (2 * (r * kMaxSpinCount + (kMaxSpinCount - 1)) + 1)))
        else ReadLock.loop clock env fuel (r + 1) := by
  have hs := ReadLock_spin_fail_range env kMaxSpinCount (r * kMaxSpinCount) h
  simp only [ReadLock.loop, hs]

theorem ReadLock_loop_round (clock : Nat → Nat) (env : Nat → RWLock) (fuel r : Nat)
    (h : ∀ j, lockOwnerID (env j)._lockState ≠ 0) :
    ReadLock.loop clock env (fuel + 1) r
      = if clock r ≥ kMaxTimeWait then
          some (Outcome.abort Violation.AcquisitionTimeout
            (env (2 * (r * kMaxSpinCount + (kMaxSpinCount - 1)) + 1)))
        else ReadLock.loop clock env fuel (r + 1) :=
  ReadLock_loop_round_range clock env fuel r (fun j _ _ => h (2 * j + 1))

theorem ReadLock_loop_hit (clock : Nat → Nat) (env : Nat → RWLock) (p w extra : Nat)
    (hfail : ∀ j, j < p → lockOwnerID (env (2 * j + 1))._lockState ≠ 0)
    (hhit : ReadLock.attempt (env (2 * p))._lockState (env (2 * p + 1))._lockState = (true, w))
    (hclock : ∀ q, q < p / kMaxSpinCount → clock q < kMaxTimeWait) (m r : Nat)
    (hr : p / kMaxSpinCount = r + m) :
    ReadLock.loop clock env (m + 1 + extra) r
      = some (Outcome.ok { env (2 * p + 1) with _lockState := w } (p + 1)) := by
  have hk : kMaxSpinCount = 5000 := rfl
  rw [hk] at hr
  induction m generalizing r with
  | zero =>
    have e : 0 + 1 + extra = extra + 1 := by omega
    have hs := ReadLock_spin_hit env kMaxSpinCount (r * kMaxSpinCount) p w
      (by rw [hk]; omega) (by rw [hk]; omega) (fun j _ h2 => hfail j h2) hhit
    rw [e]
    simp only [ReadLock.loop, hs]
  | succ m ih =>
    have h0 : ¬ (clock r ≥ kMaxTimeWait) := by
      have := hclock r (by rw [hk]; omega)
      omega
    have e : m + 1 + 1 + extra = (m + 1 + extra) + 1 := by omega
    rw [e, ReadLock_loop_round_range clock env (m + 1 + extra) r
      (fun j _ h2 => hfail j (by rw [hk] at h2; omega)), if_neg h0]
    exact ih (r + 1) (by omega)

theorem ReadLock_loop_never_ok (clock : Nat → Nat) (env : Nat → RWLock)
    (h : ∀ j, lockOwnerID (env j)._lockState ≠ 0) (fuel r : Nat) (s' : RWLock) (c : Nat) :
    ReadLock.loop clock env fuel r ≠ some (Outcome.ok s' c) := by
  induction fuel generalizing r with
  | zero => simp [ReadLock.loop]
  | succ fuel ih =>
    rw [ReadLock_loop_round clock env fuel r h]
    split
    · simp
    · exact ih (r + 1)

theorem ReadLock_loop_spinning (clock : Nat → Nat) (env : Nat → RWLock)
    (h : ∀ j, lockOwnerID (env j)._lockState ≠ 0) (fuel r : Nat)
    (hc : ∀ q, r ≤ q → q < r + fuel → clock q < kMaxTimeWait) :
    ReadLock.loop clock env fuel r = none := by
  induction fuel generalizing r with
  | zero => simp [ReadLock.loop]
  | succ fuel ih =>
    have h0 : ¬ (clock r ≥ kMaxTimeWait) := by
      have := hc r (Nat.le_refl r) (by omega)
      omega
    rw [ReadLock_loop_round clock env fuel r h, if_neg h0]
    exact ih (r + 1) (fun q h1 h2 => hc q (by omega) (by omega))

theorem ReadLock_loop_timeout (clock : Nat → Nat) (env : Nat → RWLock)
    (h : ∀ j, lockOwnerID (env j)._lockState ≠ 0) (m extra r : Nat)
    (hc : ∀ q, r ≤ q → q < r + m → clock q < kMaxTimeWait)
    (ht : kMaxTimeWait ≤ clock (r + m)) :
    ReadLock.loop clock env (m + 1 + extra) r
      = some (Outcome.abort Violation.AcquisitionTimeout
          (env (2 * ((r + m) * kMaxSpinCount + (kMaxSpinCount - 1)) + 1))) := by
  induction m generalizing r with
  | zero =>
    have e : 0 + 1 + extra = extra + 1 := by omega
    rw [e, ReadLock_loop_round clock env extra r h, if_pos (by simpa using ht)]
    simp
  | succ m ih =>
    have h0 : ¬ (clock r ≥ kMaxTimeWait) := by
      have := hc r (Nat.le_refl r) (by omega)
      omega
    have e : m + 1 + 1 + extra = (m + 1 + extra) + 1 := by omega
    rw [e, ReadLock_loop_round clock env (m + 1 + extra) r h, if_neg h0,
      ih (r + 1) (fun q h1 h2 => hc q (by omega) (by omega)) (by
        have e2 : r + 1 + m = r + (m + 1) := by omega
        rw [e2]; exact ht)]
    have e3 : r + 1 + m = r + (m + 1) := by omega
    rw [e3]

theorem ReadLock_fresh (t : Nat) (clock : Nat → Nat) (fuel : Nat) (s : RWLock)
    (h : t ≠ lockOwnerID s._lockState) (h0 : lockOwnerID s._lockState = 0)
    (hw : s._lockState < 2 ^ 64) :
    ReadLock t clock (fun _ => s) (fuel + 1) s
      = some (Outcome.ok { s with _lockState := s._lockState + 1 } 1) := by
  have hs : ReadLock.spin (fun _ => s) kMaxSpinCount (0 * kMaxSpinCount)
      = some (Outcome.ok { s with _lockState := s._lockState + 1 } 1) := by
    have e : kMaxSpinCount = 4999 + 1 := rfl
    rw [e]
    simp only [ReadLock.spin, ReadLock_attempt_ok _ h0 hw]
  simp only [ReadLock, if_neg h, ReadLock.loop, hs]

theorem loop_abort_iff_of_round (f : Nat → Nat → Option Outcome) (clock : Nat → Nat)
    (g : Nat → RWLock) (h0 : ∀ r, f 0 r = none)
    (hround : ∀ fuel r, f (fuel + 1) r
      = if clock r ≥ kMaxTimeWait then some (Outcome.abort Violation.AcquisitionTimeout (g r))
        else f fuel (r + 1))
    (fuel r : Nat) :
    (∃ s', f fuel r = some (Outcome.abort Violation.AcquisitionTimeout s'))
      ↔ ∃ m, r ≤ m ∧ m < r + fuel ∧ kMaxTimeWait ≤ clock m := by
  induction fuel generalizing r with
  | zero =>
    rw [h0]
    constructor
    · rintro ⟨s', hs'⟩
      cases hs'
    · rintro ⟨m, h1, h2, _⟩
      omega
  | succ fuel ih =>
    rw [hround]
    by_cases hc : clock r ≥ kMaxTimeWait
    · rw [if_pos hc]
      exact ⟨fun _ => ⟨r, Nat.le_refl r, by omega, hc⟩, fun _ => ⟨g r, rfl⟩⟩
    · rw [if_neg hc, ih (r + 1)]
      constructor
      · rintro ⟨m, h1, h2, h3⟩
        exact ⟨m, by omega, by omega, h3⟩
      · rintro ⟨m, h1, h2, h3⟩
        have hne : m ≠ r := by
          intro e
          rw [e] at h3
          exact hc h3
        exact ⟨m, by omega, by omega, h3⟩

/-! ## Single calls -/

theorem WriteUnlock_step_down (t w n : Nat) (hw : sharedCount w = 0) (hn : 1 < n)
    (hn2 : n < 2 ^ 32) :
    WriteUnlock t { _lockState := w, _writeCnt := n }
      = Outcome.ok { _lockState := w, _writeCnt := n - 1 } 0 := by
  have h1 : (n + (2 ^ 32 - 1)) % 2 ^ 32 = n - 1 := by omega
  have h2 : ¬ (0 = n - 1) := by omega
  simp only [WriteUnlock, hw, h1, ne_eq, not_true_eq_false, if_false, if_neg h2]

theorem WriteUnlock_last (t w : Nat) (hw : sharedCount w = 0) :
    WriteUnlock t { _lockState := w, _writeCnt := 1 } = Outcome.ok empty 0 := by
  have h1 : (1 + (2 ^ 32 - 1)) % 2 ^ 32 = 0 := by norm_num
  simp only [WriteUnlock, hw, h1, ne_eq, not_true_eq_false, if_false, if_true, empty]

theorem WriteUnlock_wrap (t w : Nat) (hw : sharedCount w = 0) :
    WriteUnlock t { _lockState := w, _writeCnt := 0 }
      = Outcome.ok { _lockState := w, _writeCnt := 2 ^ 32 - 1 } 0 := by
  have h1 : (0 + (2 ^ 32 - 1)) % 2 ^ 32 = 2 ^ 32 - 1 := by norm_num
  have h2 : ¬ ((0 : Nat) = 2 ^ 32 - 1) := by norm_num
  simp only [WriteUnlock, hw, h1, ne_eq, not_true_eq_false, if_false, if_neg h2]

theorem ReadLock_owner (t : Nat) (clock : Nat → Nat) (env : Nat → RWLock) (fuel : Nat)
    (s : RWLock) (h : t = lockOwnerID s._lockState) :
    ReadLock t clock env fuel s
      = some (Outcome.ok { s with _lockState := (s._lockState + 1) % 2 ^ 64 } 0) := by
  simp only [ReadLock, if_pos h, fetch_add]

/-! ## Sequences of calls -/

theorem run_append (clock : Nat → Nat) (fuel : Nat) (xs ys : List Op) (s : RWLock) (c : Nat) :
    run clock fuel (xs ++ ys) s c
      = match run clock fuel xs s c with
        | some (Outcome.ok s' c') => run clock fuel ys s' c'
        | r => r := by
  induction xs generalizing s c with
  | nil => simp [run]
  | cons x xs ih =>
    simp only [List.cons_append, run]
    cases hx : step clock fuel x s with
    | none => simp
    | some o =>
      cases o with
      | ok s' c' => simpa using ih s' (c + c')
      | abort v s' => simp

theorem run_append_ok (clock : Nat → Nat) (fuel : Nat) (xs ys : List Op) (s s' : RWLock)
    (c c' : Nat) (h : run clock fuel xs s c = some (Outcome.ok s' c')) :
    run clock fuel (xs ++ ys) s c = run clock fuel ys s' c' := by
  rw [run_append, h]

theorem run_cons_ok (clock : Nat → Nat) (fuel : Nat) (x : Op) (xs : List Op) (s s' : RWLock)
    (c c' : Nat) (h : step clock fuel x s = some (Outcome.ok s' c')) :
    run clock fuel (x :: xs) s c = run clock fuel xs s' (c + c') := by
  simp only [run, h]

theorem run_WriteLock_owner (clock : Nat → Nat) (fuel t w : Nat) (hw : lockOwnerID w = t)
    (k n c : Nat) (hk : n + k < 2 ^ 32) :
    run clock fuel (List.replicate k (Op.WriteLock t)) { _lockState := w, _writeCnt := n } c
      = some (Outcome.ok { _lockState := w, _writeCnt := n + k } c) := by
  induction k generalizing n c with
  | zero => simp [run]
  | succ k ih =>
    have h1 : step clock fuel (Op.WriteLock t) { _lockState := w, _writeCnt := n }
        = some (Outcome.ok { _lockState := w, _writeCnt := n + 1 } 0) := by
      have hm : (n + 1) % 2 ^ 32 = n + 1 := Nat.mod_eq_of_lt (by omega)
      simp only [step]
      rw [WriteLock_owner _ _ _ _ _ (by simpa using hw.symm)]
      simp only [hm]
    rw [List.replicate_succ, run_cons_ok _ _ _ _ _ _ _ _ h1, ih (n + 1) (c + 0) (by omega)]
    simp; omega

theorem run_WriteUnlock (clock : Nat → Nat) (fuel t w : Nat) (hw : sharedCount w = 0)
    (j n c : Nat) (hj : j < n) (hn : n < 2 ^ 32) :
    run clock fuel (List.replicate j (Op.WriteUnlock t)) { _lockState := w, _writeCnt := n } c
      = some (Outcome.ok { _lockState := w, _writeCnt := n - j } c) := by
  induction j generalizing n c with
  | zero => simp [run]
  | succ j ih =>
    have h1 : step clock fuel (Op.WriteUnlock t) { _lockState := w, _writeCnt := n }
        = some (Outcome.ok { _lockState := w, _writeCnt := n - 1 } 0) := by
      simp only [step]
      rw [WriteUnlock_step_down t w n hw (by omega) hn]
    rw [List.replicate_succ, run_cons_ok _ _ _ _ _ _ _ _ h1, ih (n - 1) (c + 0) (by omega) (by omega)]
    simp; omega

theorem run_WriteUnlock_all (clock : Nat → Nat) (fuel t w : Nat) (hw : sharedCount w = 0)
    (n c : Nat) (h1 : 1 ≤ n) (hn : n < 2 ^ 32) :
    run clock fuel (List.replicate n (Op.WriteUnlock t)) { _lockState := w, _writeCnt := n } c
      = some (Outcome.ok empty c) := by
  obtain ⟨m, rfl⟩ : ∃ m, n = m + 1 := ⟨n - 1, by omega⟩
  have h2 : step clock fuel (Op.WriteUnlock t) { _lockState := w, _writeCnt := 1 }
      = some (Outcome.ok empty 0) := by
    simp only [step]
    rw [WriteUnlock_last t w hw]
  rw [List.replicate_succ', run_append_ok _ _ _ _ _ _ _ _
    (run_WriteUnlock clock fuel t w hw m (m + 1) c (by omega) hn)]
  have h3 : m + 1 - m = 1 := by omega
  rw [h3, run_cons_ok _ _ _ _ _ _ _ _ h2]
  simp [run]

theorem step_WriteLock_empty (clock : Nat → Nat) (fuel t : Nat) (ht0 : t ≠ 0) (ht : t < 2 ^ 32)
    (n : Nat) :
    step clock (fuel + 1) (Op.WriteLock t) { _lockState := kEmptyState, _writeCnt := n }
      = some (Outcome.ok { _lockState := t * 2 ^ 32, _writeCnt := (n + 1) % 2 ^ 32 } 1) := by
  simp only [step]
  rw [WriteLock_fresh t ht]
  · rw [lockOwnerID_eq]; simpa [kEmptyState] using ht0
  · rfl

theorem ReadUnlock_down (t w n : Nat) (hw : w < 2 ^ 64) (hc : sharedCount w ≠ 0) :
    ReadUnlock t { _lockState := w, _writeCnt := n }
      = Outcome.ok { _lockState := w - 1, _writeCnt := n } 0 := by
  have h0 : w ≠ 0 := by
    intro e; apply hc; rw [e, sharedCount_eq]; exact Nat.zero_mod _
  have h1 : (w + (2 ^ 64 - 1 % 2 ^ 64)) % 2 ^ 64 = w - 1 := by omega
  have h2 : ¬ (0 = sharedCount w) := fun e => hc e.symm
  have h3 : w &&& kReadSharedCountMask = sharedCount w := rfl
  simp only [ReadUnlock, fetch_sub, h1, h3, if_neg h2]

theorem step_ReadLock_free (clock : Nat → Nat) (fuel t c n : Nat) (ht0 : t ≠ 0)
    (hc : c < 2 ^ 32) :
    step clock (fuel + 1) (Op.ReadLock t) { _lockState := c, _writeCnt := n }
      = some (Outcome.ok { _lockState := c + 1, _writeCnt := n } 1) := by
  have ho : lockOwnerID c = 0 := by rw [lockOwnerID_eq]; omega
  simp only [step]
  rw [ReadLock_fresh t clock fuel { _lockState := c, _writeCnt := n }
    (by show t ≠ lockOwnerID c; rw [ho]; exact ht0) ho (by show c < 2 ^ 64; omega)]

theorem step_ReadLock_owner (clock : Nat → Nat) (fuel t c n : Nat) (ht : t < 2 ^ 32)
    (hc : c + 1 < 2 ^ 32) :
    step clock fuel (Op.ReadLock t) { _lockState := t * 2 ^ 32 + c, _writeCnt := n }
      = some (Outcome.ok { _lockState := t * 2 ^ 32 + (c + 1), _writeCnt := n } 0) := by
  have ho : lockOwnerID (t * 2 ^ 32 + c) = t := lockOwnerID_pack t c ht (by omega)
  have hm : (t * 2 ^ 32 + c + 1) % 2 ^ 64 = t * 2 ^ 32 + (c + 1) := by omega
  simp only [step]
  rw [ReadLock_owner t clock _ fuel { _lockState := t * 2 ^ 32 + c, _writeCnt := n }
    (by show t = lockOwnerID (t * 2 ^ 32 + c); rw [ho])]
  simp only [hm]

theorem run_ReadLock_free (clock : Nat → Nat) (fuel : Nat) (tids : List Nat)
    (h0 : ∀ t ∈ tids, t ≠ 0) (c n k : Nat) (hc : c + tids.length < 2 ^ 32) :
    run clock (fuel + 1) (tids.map Op.ReadLock) { _lockState := c, _writeCnt := n } k
      = some (Outcome.ok { _lockState := c + tids.length, _writeCnt := n } (k + tids.length)) := by
  induction tids generalizing c k with
  | nil => simp [run]
  | cons t ts ih =>
    simp only [List.length_cons] at hc
    have h1 := step_ReadLock_free clock fuel t c n (h0 t (List.mem_cons_self t ts)) (by omega)
    rw [List.map_cons, run_cons_ok _ _ _ _ _ _ _ _ h1,
      ih (fun u hu => h0 u (List.mem_cons_of_mem t hu)) (c + 1) (k + 1) (by omega)]
    simp only [List.length_cons]
    have e1 : c + 1 + ts.length = c + (ts.length + 1) := by omega
    have e2 : k + 1 + ts.length = k + (ts.length + 1) := by omega
    rw [e1, e2]

theorem run_ReadLock_owner (clock : Nat → Nat) (fuel t : Nat) (ht : t < 2 ^ 32)
    (m c n k : Nat) (hc : c + m < 2 ^ 32) :
    run clock fuel (List.replicate m (Op.ReadLock t))
        { _lockState := t * 2 ^ 32 + c, _writeCnt := n } k
      = some (Outcome.ok { _lockState := t * 2 ^ 32 + (c + m), _writeCnt := n } k) := by
  induction m generalizing c k with
  | zero => simp [run]
  | succ m ih =>
    have h1 := step_ReadLock_owner clock fuel t c n ht (by omega)
    rw [List.replicate_succ, run_cons_ok _ _ _ _ _ _ _ _ h1, ih (c + 1) (k + 0) (by omega)]
    have e1 : c + 1 + m = c + (m + 1) := by omega
    simp only [e1, Nat.add_zero]

theorem run_ReadUnlock (clock : Nat → Nat) (fuel : Nat) (us : List Nat) (o c n k : Nat)
    (ho : o < 2 ^ 32) (hc : c < 2 ^ 32) (hl : us.length ≤ c) :
    run clock fuel (us.map Op.ReadUnlock) { _lockState := o * 2 ^ 32 + c, _writeCnt := n } k
      = some (Outcome.ok { _lockState := o * 2 ^ 32 + (c - us.length), _writeCnt := n } k) := by
  induction us generalizing c k with
  | nil => simp [run]
  | cons u us ih =>
    simp only [List.length_cons] at hl
    have h1 : step clock fuel (Op.ReadUnlock u) { _lockState := o * 2 ^ 32 + c, _writeCnt := n }
        = some (Outcome.ok { _lockState := o * 2 ^ 32 + (c - 1), _writeCnt := n } 0) := by
      simp only [step]
      rw [ReadUnlock_down u _ n (by omega) (by rw [sharedCount_pack o c hc]; omega)]
      have e : o * 2 ^ 32 + c - 1 = o * 2 ^ 32 + (c - 1) := by omega
      rw [e]
    rw [List.map_cons, run_cons_ok _ _ _ _ _ _ _ _ h1, ih (c - 1) (k + 0) (by omega) (by omega)]
    simp only [List.length_cons, Nat.add_zero]
    have e1 : c - 1 - us.length = c - (us.length + 1) := by omega
    rw [e1]

theorem run_WriteLock_empty (clock : Nat → Nat) (f t m : Nat) (ht0 : t ≠ 0) (ht : t < 2 ^ 32)
    (hm : m + 1 < 2 ^ 32) :
    run clock (f + 1) (List.replicate (m + 1) (Op.WriteLock t)) empty 0
      = some (Outcome.ok { _lockState := t * 2 ^ 32, _writeCnt := m + 1 } 1) := by
  have ho : lockOwnerID (t * 2 ^ 32) = t := by
    simpa using lockOwnerID_pack t 0 ht (by norm_num)
  have h1 := step_WriteLock_empty clock f t ht0 ht 0
  rw [List.replicate_succ]
  unfold empty
  rw [run_cons_ok _ _ _ _ _ _ _ _ h1,
    run_WriteLock_owner clock (f + 1) t (t * 2 ^ 32) ho m ((0 + 1) % 2 ^ 32) (0 + 1)
      (by norm_num; omega)]
  norm_num
  omega

/-! ## Recursive write acquisition -/

/-- C1: recursive write acquisition is balanced. For a thread `t ≠ 0` and `1 ≤ k < 2 ^ 32`,
starting from the empty lock, `k` calls of `WriteLock` by `t` followed by `j < k` calls of
`WriteUnlock` all return and leave a state word with owner `t` (shared count `0`, `_writeCnt`
equal to `k - j`), and `k` calls of `WriteLock` followed by `k` calls of `WriteUnlock` all
return and leave the empty lock. Only the first `WriteLock` makes a compare-and-swap. -/
theorem C1_recursive_write_balanced (t k : Nat) (ht0 : t ≠ 0) (ht : t < 2 ^ 32)
    (hk1 : 1 ≤ k) (hk : k < 2 ^ 32) (clock : Nat → Nat) (fuel : Nat) (hfuel : 0 < fuel) :
    (∀ j, j < k → ∃ s,
        run clock fuel
            (List.replicate k (Op.WriteLock t) ++ List.replicate j (Op.WriteUnlock t)) empty 0
          = some (Outcome.ok s 1)
        ∧ lockOwnerID s._lockState = t ∧ sharedCount s._lockState = 0 ∧ s._writeCnt = k - j)
    ∧ run clock fuel
          (List.replicate k (Op.WriteLock t) ++ List.replicate k (Op.WriteUnlock t)) empty 0
        = some (Outcome.ok empty 1) := by
  obtain ⟨f, rfl⟩ : ∃ f, fuel = f + 1 := ⟨fuel - 1, by omega⟩
  obtain ⟨m, rfl⟩ : ∃ m, k = m + 1 := ⟨k - 1, by omega⟩
  have ho : lockOwnerID (t * 2 ^ 32) = t := by
    simpa using lockOwnerID_pack t 0 ht (by norm_num)
  have hc : sharedCount (t * 2 ^ 32) = 0 := by
    simpa using sharedCount_pack t 0 (by norm_num)
  have hlocks := run_WriteLock_empty clock f t m ht0 ht hk
  refine ⟨fun j hj => ⟨{ _lockState := t * 2 ^ 32, _writeCnt := m + 1 - j }, ?_, ho, hc, rfl⟩, ?_⟩
  · rw [run_append_ok _ _ _ _ _ _ _ _ hlocks,
      run_WriteUnlock clock (f + 1) t (t * 2 ^ 32) hc j (m + 1) 1 hj hk]
  · rw [run_append_ok _ _ _ _ _ _ _ _ hlocks,
      run_WriteUnlock_all clock (f + 1) t (t * 2 ^ 32) hc (m + 1) 1 hk1 hk]

/-- C1 at thread `1` and depth `2`. -/
theorem C1_recursive_write_balanced_witness :
    (1 : Nat) ≠ 0 ∧ (1 : Nat) < 2 ^ 32 ∧ 1 ≤ 2 ∧ 2 < 2 ^ 32 ∧ 0 < 1 ∧
      run (fun _ => 0) 1
          [Op.WriteLock 1, Op.WriteLock 1, Op.WriteUnlock 1, Op.WriteUnlock 1] empty 0
        = some (Outcome.ok empty 1) :=
  ⟨by norm_num, by norm_num, by norm_num, by norm_num, by norm_num,
    (C1_recursive_write_balanced 1 2 (by norm_num) (by norm_num) (by norm_num) (by norm_num)
      (fun _ => 0) 1 (by norm_num)).2⟩

/-! ## Writer exclusion -/

/-- C2: writer exclusion. For a thread `t ≠ 0` and a lock whose owner field is not `t`, one
compare-and-swap attempt of `WriteLock` by `t` succeeds exactly when the state word is
`kEmptyState`, that is when owner field and shared count are both `0`. On success the new
word has owner `t` and shared count `0`, and `_writeCnt` has been incremented by one as the
32-bit counter it is (from `n` to `n + 1`, and from `2 ^ 32 - 1` to `0`). On failure the lock
is unchanged. A whole call that finds the lock empty returns
after one compare-and-swap, and as long as the lock has an owner or a reader whenever the call
looks at it, the call never returns. -/
theorem C2_writer_exclusion (t : Nat) (ht0 : t ≠ 0) (ht : t < 2 ^ 32) (s : RWLock)
    (hw : s._lockState < 2 ^ 64) (hs : lockOwnerID s._lockState ≠ t) :
    ((WriteLock.attempt (((t <<< 32) % 2 ^ 64) &&& kWriteOwnerThreadMask) s).1 = true
        ↔ s._lockState = kEmptyState)
    ∧ (s._lockState = kEmptyState
        ↔ lockOwnerID s._lockState = 0 ∧ sharedCount s._lockState = 0)
    ∧ (s._lockState = kEmptyState →
        ∃ s', WriteLock.attempt (((t <<< 32) % 2 ^ 64) &&& kWriteOwnerThreadMask) s = (true, s')
          ∧ lockOwnerID s'._lockState = t ∧ sharedCount s'._lockState = 0
          ∧ s'._writeCnt = (s._writeCnt + 1) % 2 ^ 32
          ∧ (s._writeCnt + 1 < 2 ^ 32 → s'._writeCnt = s._writeCnt + 1)
          ∧ ∀ (clock : Nat → Nat) (fuel : Nat),
              WriteLock t clock (fun _ => s) (fuel + 1) s = some (Outcome.ok s' 1))
    ∧ (s._lockState ≠ kEmptyState →
        WriteLock.attempt (((t <<< 32) % 2 ^ 64) &&& kWriteOwnerThreadMask) s = (false, s))
    ∧ (∀ (clock : Nat → Nat) (env : Nat → RWLock) (fuel : Nat),
        (∀ i, lockOwnerID (env i)._lockState ≠ 0 ∨ sharedCount (env i)._lockState ≠ 0) →
        ∀ s' c, WriteLock t clock env fuel s ≠ some (Outcome.ok s' c)) := by
  have ho : lockOwnerID (t * 2 ^ 32) = t := by
    simpa using lockOwnerID_pack t 0 ht (by norm_num)
  have hc : sharedCount (t * 2 ^ 32) = 0 := by
    simpa using sharedCount_pack t 0 (by norm_num)
  rw [desired_eq t ht]
  refine ⟨?_, ?_, ?_, ?_, ?_⟩
  · by_cases h : s._lockState = kEmptyState
    · simp [WriteLock.attempt, compare_exchange_strong, h]
    · simp [WriteLock.attempt, compare_exchange_strong, h]
  · constructor
    · intro h
      rw [h, lockOwnerID_eq, sharedCount_eq]
      simp [kEmptyState]
    · intro h
      have := word_eq_pack s._lockState hw
      rw [h.1, h.2] at this
      simpa [kEmptyState] using this
  · intro h
    refine ⟨{ _lockState := t * 2 ^ 32, _writeCnt := (s._writeCnt + 1) % 2 ^ 32 }, ?_, ho, hc,
      rfl, fun hlt => Nat.mod_eq_of_lt hlt, ?_⟩
    · simp only [WriteLock.attempt, compare_exchange_strong, if_pos h]
    · intro clock fuel
      exact WriteLock_fresh t ht clock (fun _ => s) fuel s (Ne.symm hs) h
  · intro h
    simp only [WriteLock.attempt, compare_exchange_strong, if_neg h]
  · intro clock env fuel henv s' c
    have hne : ∀ i, (env i)._lockState ≠ kEmptyState := by
      intro i e
      rcases henv i with h1 | h1
      · apply h1; rw [e, lockOwnerID_eq]; simp [kEmptyState]
      · apply h1; rw [e, sharedCount_eq]; simp [kEmptyState]
    simp only [WriteLock, if_neg (Ne.symm hs)]
    exact WriteLock_loop_never_ok _ clock env hne fuel 0 s' c

/-- C2 at thread `1` and the empty lock: the attempt succeeds. -/
theorem C2_writer_exclusion_witness :
    (1 : Nat) ≠ 0 ∧ (1 : Nat) < 2 ^ 32 ∧ empty._lockState < 2 ^ 64
      ∧ lockOwnerID empty._lockState ≠ 1
      ∧ ((WriteLock.attempt (((1 <<< 32) % 2 ^ 64) &&& kWriteOwnerThreadMask) empty).1 = true
          ↔ empty._lockState = kEmptyState) :=
  ⟨by norm_num, by norm_num, by norm_num [empty, kEmptyState],
    by rw [lockOwnerID_eq]; norm_num [empty, kEmptyState],
    (C2_writer_exclusion 1 (by norm_num) (by norm_num) empty (by norm_num [empty, kEmptyState])
      (by rw [lockOwnerID_eq]; norm_num [empty, kEmptyState])).1⟩

/-! ## Shared readers -/

/-- C3, as stated, fails for the thread identity `0`: on the empty lock `ReadLock` called with
`tls_threadID = 0` finds `tls_threadID == lockOwnerID`, adds one to the state word with
`fetch_add` and returns without any compare-and-swap. -/
theorem C3_counterexample_thread_zero :
    step (fun _ => 0) 1 (Op.ReadLock 0) empty
        = some (Outcome.ok { _lockState := 1, _writeCnt := 0 } 0)
      ∧ step (fun _ => 0) 1 (Op.ReadLock 0) empty
        ≠ some (Outcome.ok { _lockState := 1, _writeCnt := 0 } 1) := by
  have h : step (fun _ => 0) 1 (Op.ReadLock 0) empty
      = some (Outcome.ok { _lockState := 1, _writeCnt := 0 } 0) := by
    simp only [step]
    rw [ReadLock_owner 0 _ _ 1 empty (by rw [lockOwnerID_eq]; rfl)]
    rfl
  refine ⟨h, ?_⟩
  rw [h]
  intro e
  injection e with e
  injection e with _ e
  exact absurd e (by decide)

/-- C3 (amended): shared readers count up and down. For a list `tids` of fewer than `2 ^ 32`
thread identities, all different from `0`, starting from the empty lock: the `i`-th `ReadLock`
finds the state word `i`, returns after exactly one compare-and-swap and leaves the word
`i + 1`; after the first `i` calls the word is `i` (owner field `0`, shared count `i`). Then
`ReadUnlock` calls, by any threads `us`, all return: after `j` of them the word is
`tids.length - j`, and after `tids.length` of them the lock is empty. `_writeCnt` is `0` at
every stage. -/
theorem C3_shared_readers_count (tids us : List Nat) (h0 : ∀ t ∈ tids, t ≠ 0)
    (hM : tids.length < 2 ^ 32) (hus : us.length = tids.length)
    (clock : Nat → Nat) (fuel : Nat) (hfuel : 0 < fuel) :
    (∀ i (hi : i < tids.length),
        step clock fuel (Op.ReadLock (tids.get ⟨i, hi⟩)) { _lockState := i, _writeCnt := 0 }
          = some (Outcome.ok { _lockState := i + 1, _writeCnt := 0 } 1))
    ∧ (∀ i, i ≤ tids.length →
        run clock fuel ((tids.take i).map Op.ReadLock) empty 0
          = some (Outcome.ok { _lockState := i, _writeCnt := 0 } i)
        ∧ lockOwnerID i = 0 ∧ sharedCount i = i)
    ∧ (∀ j, j ≤ tids.length →
        run clock fuel (tids.map Op.ReadLock ++ (us.take j).map Op.ReadUnlock) empty 0
          = some (Outcome.ok { _lockState := tids.length - j, _writeCnt := 0 } tids.length))
    ∧ run clock fuel (tids.map Op.ReadLock ++ us.map Op.ReadUnlock) empty 0
        = some (Outcome.ok empty tids.length) := by
  obtain ⟨f, rfl⟩ : ∃ f, fuel = f + 1 := ⟨fuel - 1, by omega⟩
  have hlocks : ∀ i, i ≤ tids.length →
      run clock (f + 1) ((tids.take i).map Op.ReadLock) empty 0
        = some (Outcome.ok { _lockState := i, _writeCnt := 0 } i) := by
    intro i hi
    have hlen : (tids.take i).length = i := by simp [List.length_take]; omega
    have h := run_ReadLock_free clock f (tids.take i)
      (fun t ht => h0 t (List.mem_of_mem_take ht)) 0 0 0 (by rw [hlen]; omega)
    rw [hlen] at h
    simpa [empty, kEmptyState] using h
  have hall := hlocks tids.length (Nat.le_refl _)
  rw [List.take_length] at hall
  have hunlocks : ∀ j, j ≤ tids.length →
      run clock (f + 1) (tids.map Op.ReadLock ++ (us.take j).map Op.ReadUnlock) empty 0
        = some (Outcome.ok { _lockState := tids.length - j, _writeCnt := 0 } tids.length) := by
    intro j hj
    have hlen : (us.take j).length = j := by simp [List.length_take]; omega
    have h := run_ReadUnlock clock (f + 1) (us.take j) 0 tids.length 0 tids.length
      (by norm_num) hM (by rw [hlen]; exact hj)
    rw [hlen] at h
    rw [run_append_ok _ _ _ _ _ _ _ _ hall]
    simpa using h
  refine ⟨?_, ?_, hunlocks, ?_⟩
  · intro i hi
    exact step_ReadLock_free clock f _ i 0 (h0 _ (List.get_mem tids i hi)) (by omega)
  · intro i hi
    refine ⟨hlocks i hi, ?_, ?_⟩
    · rw [lockOwnerID_eq]; omega
    · rw [sharedCount_eq]; omega
  · have h := hunlocks tids.length (Nat.le_refl _)
    rw [← hus, List.take_length, hus, Nat.sub_self] at h
    exact h

/-- C3 (amended) for the two threads `3` and `4`, unlocked by threads `9` and `3`. -/
theorem C3_shared_readers_count_witness :
    (∀ t ∈ [3, 4], t ≠ 0) ∧ [3, 4].length < 2 ^ 32 ∧ [9, 3].length = [3, 4].length ∧ 0 < 1
      ∧ run (fun _ => 0) 1 ([3, 4].map Op.ReadLock ++ [9, 3].map Op.ReadUnlock) empty 0
          = some (Outcome.ok empty [3, 4].length) :=
  ⟨by decide, by norm_num, rfl, by norm_num,
    (C3_shared_readers_count [3, 4] [9, 3] (by decide) (by norm_num) rfl (fun _ => 0) 1
      (by norm_num)).2.2.2⟩

/-! ## A reader and a foreign writer -/

/-- C4: a reader waits for a foreign writer. Thread `A ≠ 0` takes the write lock on the empty
lock, which leaves a lock `s1` with owner field `A`. A compare-and-swap attempt of `ReadLock`
on any state word with owner field `A` fails and leaves the word as it is, so a `ReadLock` call
by `B ≠ A` never returns as long as the owner field is `A`. `WriteUnlock` by `A` then empties
the lock, and a `ReadLock` call by `B` that began on `s1` and failed `p` times before the
release succeeds at its next attempt, leaving owner field `0` and shared count `1`. -/
theorem C4_reader_waits_for_writer (A B : Nat) (hA0 : A ≠ 0) (hA : A < 2 ^ 32) (hAB : B ≠ A)
    (clock : Nat → Nat) (fuel : Nat) (hfuel : 0 < fuel) :
    ∃ s1 : RWLock,
      step clock fuel (Op.WriteLock A) empty = some (Outcome.ok s1 1)
      ∧ lockOwnerID s1._lockState = A
      ∧ (∀ wLoad w, lockOwnerID w = A → ReadLock.attempt wLoad w = (false, w))
      ∧ (∀ (clockB : Nat → Nat) (env : Nat → RWLock) (fuelB : Nat),
          (∀ i, lockOwnerID (env i)._lockState = A) →
          ∀ s' c, ReadLock B clockB env fuelB s1 ≠ some (Outcome.ok s' c))
      ∧ step clock fuel (Op.WriteUnlock A) s1 = some (Outcome.ok empty 0)
      ∧ (∀ (clockB : Nat → Nat) (p extra : Nat),
          (∀ q, q < p / kMaxSpinCount → clockB q < kMaxTimeWait) →
          ReadLock B clockB (fun i => if i < 2 * p then s1 else empty)
              (p / kMaxSpinCount + 1 + extra) s1
            = some (Outcome.ok { _lockState := 1, _writeCnt := 0 } (p + 1)))
      ∧ lockOwnerID 1 = 0 ∧ sharedCount 1 = 1 := by
  obtain ⟨f, rfl⟩ : ∃ f, fuel = f + 1 := ⟨fuel - 1, by omega⟩
  have ho : lockOwnerID (A * 2 ^ 32) = A := by
    simpa using lockOwnerID_pack A 0 hA (by norm_num)
  have hc : sharedCount (A * 2 ^ 32) = 0 := by
    simpa using sharedCount_pack A 0 (by norm_num)
  have hB : B ≠ lockOwnerID (A * 2 ^ 32) := by rw [ho]; exact hAB
  refine ⟨{ _lockState := A * 2 ^ 32, _writeCnt := 1 }, ?_, ho, ?_, ?_, ?_, ?_, ?_, ?_⟩
  · exact step_WriteLock_empty clock f A hA0 hA 0
  · intro wLoad w hw
    exact ReadLock_attempt_fail wLoad w (by rw [hw]; exact hA0)
  · intro clockB env fuelB henv s' c
    simp only [ReadLock, if_neg hB]
    exact ReadLock_loop_never_ok clockB env (fun j => by rw [henv j]; exact hA0) fuelB 0 s' c
  · simp only [step]
    rw [WriteUnlock_last A (A * 2 ^ 32) hc]
  · intro clockB p extra hclock
    simp only [ReadLock, if_neg hB]
    have h := ReadLock_loop_hit clockB
      (fun i => if i < 2 * p then ({ _lockState := A * 2 ^ 32, _writeCnt := 1 } : RWLock)
        else empty) p 1 extra
      (fun j hj => by
        have e : 2 * j + 1 < 2 * p := by omega
        simp only [if_pos e, ho]
        exact hA0)
      (by
        have e1 : ¬ (2 * p < 2 * p) := by omega
        have e2 : ¬ (2 * p + 1 < 2 * p) := by omega
        simp only [if_neg e1, if_neg e2]
        exact ReadLock_attempt_ok 0 (by rw [lockOwnerID_eq]; rfl) (by norm_num))
      hclock (p / kMaxSpinCount) 0 (by omega)
    have e2 : ¬ (2 * p + 1 < 2 * p) := by omega
    simp only [if_neg e2] at h
    exact h
  · rw [lockOwnerID_eq]; rfl
  · rw [sharedCount_eq]; rfl

/-- C4 for the writer `1` and the reader `2`: the reader's first attempt after the release
succeeds. -/
theorem C4_reader_waits_for_writer_witness :
    (1 : Nat) ≠ 0 ∧ (1 : Nat) < 2 ^ 32 ∧ (2 : Nat) ≠ 1 ∧ 0 < 1
      ∧ ∃ s1 : RWLock, step (fun _ => 0) 1 (Op.WriteLock 1) empty = some (Outcome.ok s1 1)
          ∧ step (fun _ => 0) 1 (Op.WriteUnlock 1) s1 = some (Outcome.ok empty 0) :=
  ⟨by norm_num, by norm_num, by norm_num, by norm_num,
    (C4_reader_waits_for_writer 1 2 (by norm_num) (by norm_num) (by norm_num) (fun _ => 0) 1
      (by norm_num)).imp (fun _ h => ⟨h.1, h.2.2.2.2.1⟩)⟩

/-! ## The owner as a reader -/

/-- C5: owner-as-reader fast path. When the state word `w` has owner field `t ≠ 0` and shared
count `c < 2 ^ 32 - 1`, and `_writeCnt` is `n`, `ReadLock` called by `t` returns without any
compare-and-swap (whatever the clock, the other threads and the fuel), leaves owner field `t`,
shared count `c + 1` and `_writeCnt = n`; a following `ReadUnlock` returns and restores the
word `w`, still with `_writeCnt = n`. -/
theorem C5_owner_reads_without_contention (t n c w : Nat) (ht0 : t ≠ 0) (hw : w < 2 ^ 64)
    (ho : lockOwnerID w = t) (hc : sharedCount w = c) (hc2 : c < 2 ^ 32 - 1)
    (clock : Nat → Nat) (env : Nat → RWLock) (fuel : Nat) :
    ∃ s1 : RWLock,
      ReadLock t clock env fuel { _lockState := w, _writeCnt := n } = some (Outcome.ok s1 0)
      ∧ lockOwnerID s1._lockState = t ∧ sharedCount s1._lockState = c + 1 ∧ s1._writeCnt = n
      ∧ ReadUnlock t s1 = Outcome.ok { _lockState := w, _writeCnt := n } 0 := by
  have hpack := word_eq_pack w hw
  rw [ho, hc] at hpack
  have ht : t < 2 ^ 32 := by rw [← ho]; exact lockOwnerID_lt w
  have hm : (w + 1) % 2 ^ 64 = t * 2 ^ 32 + (c + 1) := by omega
  refine ⟨{ _lockState := t * 2 ^ 32 + (c + 1), _writeCnt := n }, ?_, ?_, ?_, rfl, ?_⟩
  · rw [ReadLock_owner t clock env fuel { _lockState := w, _writeCnt := n }
      (by show t = lockOwnerID w; rw [ho])]
    simp only [hm]
  · exact lockOwnerID_pack t (c + 1) ht (by omega)
  · exact sharedCount_pack t (c + 1) (by omega)
  · rw [ReadUnlock_down t _ n (by omega)
      (by rw [sharedCount_pack t (c + 1) (by omega)]; omega)]
    have e : t * 2 ^ 32 + (c + 1) - 1 = w := by omega
    rw [e]

/-- C5 for thread `1` holding the write lock at depth `1` with no read lock yet. -/
theorem C5_owner_reads_without_contention_witness :
    (1 : Nat) ≠ 0 ∧ (2 ^ 32 : Nat) < 2 ^ 64 ∧ lockOwnerID (2 ^ 32) = 1
      ∧ sharedCount (2 ^ 32) = 0 ∧ 0 < 2 ^ 32 - 1
      ∧ ∃ s1 : RWLock,
          ReadLock 1 (fun _ => 0) (fun _ => empty) 0 { _lockState := 2 ^ 32, _writeCnt := 1 }
            = some (Outcome.ok s1 0)
          ∧ ReadUnlock 1 s1 = Outcome.ok { _lockState := 2 ^ 32, _writeCnt := 1 } 0 :=
  ⟨by norm_num, by norm_num, by rw [lockOwnerID_eq]; norm_num, by rw [sharedCount_eq]; norm_num,
    by norm_num,
    (C5_owner_reads_without_contention 1 1 0 (2 ^ 32) (by norm_num) (by norm_num)
      (by rw [lockOwnerID_eq]; norm_num) (by rw [sharedCount_eq]; norm_num) (by norm_num)
      (fun _ => 0) (fun _ => empty) 0).imp (fun _ h => ⟨h.1, h.2.2.2.2⟩)⟩

/-- C6: nested write with reads inside is clean. For a thread `t ≠ 0`, `1 ≤ k < 2 ^ 32` and
`m < 2 ^ 32`, starting from the empty lock, the calls `k` times `WriteLock`, `m` times
`ReadLock`, `m` times `ReadUnlock`, `k` times `WriteUnlock`, all by `t`, all return, none
terminates the program, and the lock is empty at the end. After the read locks the state word
has owner field `t` and shared count `m`. -/
theorem C6_nested_write_with_reads (t k m : Nat) (ht0 : t ≠ 0) (ht : t < 2 ^ 32)
    (hk1 : 1 ≤ k) (hk : k < 2 ^ 32) (hm : m < 2 ^ 32) (clock : Nat → Nat) (fuel : Nat)
    (hfuel : 0 < fuel) :
    (∃ s : RWLock,
        run clock fuel
            (List.replicate k (Op.WriteLock t) ++ List.replicate m (Op.ReadLock t)) empty 0
          = some (Outcome.ok s 1)
        ∧ lockOwnerID s._lockState = t ∧ sharedCount s._lockState = m ∧ s._writeCnt = k)
    ∧ run clock fuel
          (List.replicate k (Op.WriteLock t) ++ (List.replicate m (Op.ReadLock t)
            ++ (List.replicate m (Op.ReadUnlock t) ++ List.replicate k (Op.WriteUnlock t))))
          empty 0
        = some (Outcome.ok empty 1) := by
  obtain ⟨f, rfl⟩ : ∃ f, fuel = f + 1 := ⟨fuel - 1, by omega⟩
  obtain ⟨j, rfl⟩ : ∃ j, k = j + 1 := ⟨k - 1, by omega⟩
  have hc : sharedCount (t * 2 ^ 32) = 0 := by
    simpa using sharedCount_pack t 0 (by norm_num)
  have hlocks := run_WriteLock_empty clock f t j ht0 ht hk
  have hreads := run_ReadLock_owner clock (f + 1) t ht m 0 (j + 1) 1 (by omega)
  have hunreads := run_ReadUnlock clock (f + 1) (List.replicate m t) t (0 + m) (j + 1) 1 ht
    (by omega) (by simp)
  rw [List.map_replicate, List.length_replicate] at hunreads
  have e : t * 2 ^ 32 + (0 + m - m) = t * 2 ^ 32 := by omega
  rw [e] at hunreads
  have hunlocks := run_WriteUnlock_all clock (f + 1) t (t * 2 ^ 32) hc (j + 1) 1 hk1 hk
  have e0 : t * 2 ^ 32 + 0 = t * 2 ^ 32 := by omega
  rw [e0] at hreads
  constructor
  · refine ⟨{ _lockState := t * 2 ^ 32 + (0 + m), _writeCnt := j + 1 }, ?_, ?_, ?_, rfl⟩
    · rw [run_append_ok _ _ _ _ _ _ _ _ hlocks, hreads]
    · exact lockOwnerID_pack t (0 + m) ht (by omega)
    · rw [sharedCount_pack t (0 + m) (by omega)]; omega
  · rw [run_append_ok _ _ _ _ _ _ _ _ hlocks, run_append_ok _ _ _ _ _ _ _ _ hreads,
      run_append_ok _ _ _ _ _ _ _ _ hunreads, hunlocks]

/-- C6 at the scenario of the specification: thread `1`, `k = 2`, `m = 1`. -/
theorem C6_nested_write_with_reads_witness :
    (1 : Nat) ≠ 0 ∧ (1 : Nat) < 2 ^ 32 ∧ 1 ≤ 2 ∧ 2 < 2 ^ 32 ∧ 1 < 2 ^ 32 ∧ 0 < 1
      ∧ run (fun _ => 0) 1
          [Op.WriteLock 1, Op.WriteLock 1, Op.ReadLock 1, Op.ReadUnlock 1,
            Op.WriteUnlock 1, Op.WriteUnlock 1] empty 0
        = some (Outcome.ok empty 1) :=
  ⟨by norm_num, by norm_num, by norm_num, by norm_num, by norm_num, by norm_num,
    (C6_nested_write_with_reads 1 2 1 (by norm_num) (by norm_num) (by norm_num) (by norm_num)
      (by norm_num) (fun _ => 0) 1 (by norm_num)).2⟩

/-! ## Violations flagged by the unlock calls -/

/-- C7: `WriteUnlock` terminates the program with "Unlock Order Mismatch" exactly when the
shared count of the state word is not `0`; the lock is then exactly as it was before the call.
When the shared count is `0` the call returns. No other violation is ever flagged by
`WriteUnlock`. -/
theorem C7_write_unlock_order_violation (t : Nat) (s : RWLock) :
    ((∃ s', WriteUnlock t s = Outcome.abort Violation.UnlockOrderViolation s')
        ↔ sharedCount s._lockState ≠ 0)
    ∧ (sharedCount s._lockState ≠ 0 →
        WriteUnlock t s = Outcome.abort Violation.UnlockOrderViolation s)
    ∧ (sharedCount s._lockState = 0 → ∃ s', WriteUnlock t s = Outcome.ok s' 0)
    ∧ (∀ v s', WriteUnlock t s = Outcome.abort v s' →
        v = Violation.UnlockOrderViolation ∧ s' = s) := by
  by_cases h : sharedCount s._lockState = 0
  · have hret : ∃ s', WriteUnlock t s = Outcome.ok s' 0 := by
      by_cases h2 : 0 = (s._writeCnt + (2 ^ 32 - 1)) % 2 ^ 32
      · exact ⟨{ _lockState := kEmptyState,
                 _writeCnt := (s._writeCnt + (2 ^ 32 - 1)) % 2 ^ 32 },
          by simp only [WriteUnlock, h, ne_eq, not_true_eq_false, if_false, if_pos h2]⟩
      · exact ⟨{ s with _writeCnt := (s._writeCnt + (2 ^ 32 - 1)) % 2 ^ 32 },
          by simp only [WriteUnlock, h, ne_eq, not_true_eq_false, if_false, if_neg h2]⟩
    obtain ⟨s1, hs1⟩ := hret
    refine ⟨?_, ?_, ?_, ?_⟩
    · constructor
      · rintro ⟨s', hs'⟩
        rw [hs1] at hs'
        cases hs'
      · intro h2
        exact absurd h h2
    · intro h2
      exact absurd h h2
    · intro _
      exact ⟨s1, hs1⟩
    · intro v s' hs'
      rw [hs1] at hs'
      cases hs'
  · have hab : WriteUnlock t s = Outcome.abort Violation.UnlockOrderViolation s := by
      have h2 : 0 ≠ sharedCount s._lockState := fun e => h e.symm
      simp only [WriteUnlock, if_pos h2]
    refine ⟨?_, ?_, ?_, ?_⟩
    · exact ⟨fun _ => h, fun _ => ⟨s, hab⟩⟩
    · intro _
      exact hab
    · intro h2
      exact absurd h2 h
    · intro v s' hs'
      rw [hab] at hs'
      cases hs'
      exact ⟨rfl, rfl⟩

/-- C8: `ReadUnlock` terminates the program with "ReadUnlock Under Zero" exactly when the
shared count of the state word found by `fetch_sub` is `0`, for every 64-bit state word and
every calling thread. When that shared count is `c > 0` the call returns and leaves shared
count `c - 1`, the same owner field and the same `_writeCnt`. -/
theorem C8_read_unlock_underflow (t : Nat) (s : RWLock) (hw : s._lockState < 2 ^ 64) :
    ((∃ s', ReadUnlock t s = Outcome.abort Violation.ReadUnderflow s')
        ↔ sharedCount s._lockState = 0)
    ∧ (sharedCount s._lockState ≠ 0 →
        ∃ s', ReadUnlock t s = Outcome.ok s' 0
          ∧ sharedCount s'._lockState = sharedCount s._lockState - 1
          ∧ lockOwnerID s'._lockState = lockOwnerID s._lockState
          ∧ s'._writeCnt = s._writeCnt) := by
  have h3 : s._lockState &&& kReadSharedCountMask = sharedCount s._lockState := rfl
  constructor
  · constructor
    · rintro ⟨s', hs'⟩
      by_contra h
      have := ReadUnlock_down t s._lockState s._writeCnt hw h
      rw [this] at hs'
      cases hs'
    · intro h
      exact ⟨{ s with _lockState := (s._lockState + (2 ^ 64 - 1 % 2 ^ 64)) % 2 ^ 64 },
        by simp only [ReadUnlock, fetch_sub, h3, h, if_true]⟩
  · intro h
    refine ⟨{ _lockState := s._lockState - 1, _writeCnt := s._writeCnt }, ?_, ?_, ?_, rfl⟩
    · exact ReadUnlock_down t s._lockState s._writeCnt hw h
    · show sharedCount (s._lockState - 1) = sharedCount s._lockState - 1
      rw [sharedCount_eq] at h
      rw [sharedCount_eq, sharedCount_eq]
      omega
    · show lockOwnerID (s._lockState - 1) = lockOwnerID s._lockState
      rw [sharedCount_eq] at h
      rw [lockOwnerID_eq, lockOwnerID_eq]
      omega

/-- C8 on the empty lock, where the shared count is `0`. -/
theorem C8_read_unlock_underflow_witness :
    empty._lockState < 2 ^ 64
      ∧ ((∃ s', ReadUnlock 1 empty = Outcome.abort Violation.ReadUnderflow s')
          ↔ sharedCount empty._lockState = 0) :=
  ⟨by norm_num [empty, kEmptyState],
    (C8_read_unlock_underflow 1 empty (by norm_num [empty, kEmptyState])).1⟩

/-! ## Acquisition timeout -/

/-- C9, as stated, fails when the measured interval equals `kMaxTimeWait`: the interval
`10000` does not exceed the maximum wait, yet `WriteLock` and `ReadLock` by thread `2` on a
lock held by thread `1` terminate the program after the first spin round, although the model
was given fuel for a second round. -/
theorem C9_counterexample_interval_equal_max :
    ¬ (kMaxTimeWait < 10000)
      ∧ WriteLock 2 (fun _ => 10000) (fun _ => { _lockState := 2 ^ 32, _writeCnt := 1 }) 2
            { _lockState := 2 ^ 32, _writeCnt := 1 }
          = some (Outcome.abort Violation.AcquisitionTimeout
              { _lockState := 2 ^ 32, _writeCnt := 1 })
      ∧ ReadLock 2 (fun _ => 10000) (fun _ => { _lockState := 2 ^ 32, _writeCnt := 1 }) 2
            { _lockState := 2 ^ 32, _writeCnt := 1 }
          = some (Outcome.abort Violation.AcquisitionTimeout
              { _lockState := 2 ^ 32, _writeCnt := 1 }) := by
  have ho : lockOwnerID (2 ^ 32) = 1 := by rw [lockOwnerID_eq]; norm_num
  have h2 : (2 : Nat) ≠ lockOwnerID (2 ^ 32) := by rw [ho]; norm_num
  refine ⟨by decide, ?_, ?_⟩
  · simp only [WriteLock, if_neg h2]
    have h := WriteLock_loop_timeout ((2 <<< 32) % 2 ^ 64 &&& kWriteOwnerThreadMask)
      (fun _ => 10000) (fun _ => { _lockState := 2 ^ 32, _writeCnt := 1 })
      (fun _ => by simp [kEmptyState]) 0 1 0 (fun q h1 h2 => by omega) (by decide)
    exact h
  · simp only [ReadLock, if_neg h2]
    have h := ReadLock_loop_timeout
      (fun _ => 10000) (fun _ => { _lockState := 2 ^ 32, _writeCnt := 1 })
      (fun _ => by simp only [ho]; norm_num) 0 1 0 (fun q h1 h2 => by omega) (by decide)
    exact h

/-- C9 (amended): acquisition timeout, with the clock as an input. Thread `t` is not the owner
when it calls. If every compare-and-swap attempt of the call fails (for `WriteLock`: the state
word is never `kEmptyState`; for `ReadLock`: the owner field is never `0`), then within the
first `fuel` spin rounds the call terminates the program with "TimeOut" exactly when the
interval measured after one of these rounds is at least `kMaxTimeWait`; if all these intervals
are less than `kMaxTimeWait` the call is still spinning after `fuel` rounds; it never returns;
and after a round whose measured interval is less than `kMaxTimeWait` it goes on with the next
round of `kMaxSpinCount` attempts. -/
theorem C9_acquisition_timeout (t : Nat) (s : RWLock) (hs : t ≠ lockOwnerID s._lockState)
    (clock : Nat → Nat) (env : Nat → RWLock) (fuel : Nat) :
    ((∀ i, (env i)._lockState ≠ kEmptyState) →
        ((∃ s', WriteLock t clock env fuel s
              = some (Outcome.abort Violation.AcquisitionTimeout s'))
            ↔ ∃ m, m < fuel ∧ kMaxTimeWait ≤ clock m)
        ∧ ((∀ m, m < fuel → clock m < kMaxTimeWait) → WriteLock t clock env fuel s = none)
        ∧ (∀ s' c, WriteLock t clock env fuel s ≠ some (Outcome.ok s' c))
        ∧ WriteLock t clock env fuel s
            = WriteLock.loop (((t <<< 32) % 2 ^ 64) &&& kWriteOwnerThreadMask) clock env fuel 0
        ∧ ∀ d f r, WriteLock.loop d clock env (f + 1) r
            = if clock r ≥ kMaxTimeWait then
                some (Outcome.abort Violation.AcquisitionTimeout
                  (env (r * kMaxSpinCount + (kMaxSpinCount - 1))))
              else WriteLock.loop d clock env f (r + 1))
    ∧ ((∀ i, lockOwnerID (env i)._lockState ≠ 0) →
        ((∃ s', ReadLock t clock env fuel s
              = some (Outcome.abort Violation.AcquisitionTimeout s'))
            ↔ ∃ m, m < fuel ∧ kMaxTimeWait ≤ clock m)
        ∧ ((∀ m, m < fuel → clock m < kMaxTimeWait) → ReadLock t clock env fuel s = none)
        ∧ (∀ s' c, ReadLock t clock env fuel s ≠ some (Outcome.ok s' c))
        ∧ ReadLock t clock env fuel s = ReadLock.loop clock env fuel 0
        ∧ ∀ f r, ReadLock.loop clock env (f + 1) r
            = if clock r ≥ kMaxTimeWait then
                some (Outcome.abort Violation.AcquisitionTimeout
                  (env (2 * (r * kMaxSpinCount + (kMaxSpinCount - 1)) + 1)))
              else ReadLock.loop clock env f (r + 1)) := by
  have hW : WriteLock t clock env fuel s
      = WriteLock.loop (((t <<< 32) % 2 ^ 64) &&& kWriteOwnerThreadMask) clock env fuel 0 := by
    simp only [WriteLock, if_neg hs]
  have hR : ReadLock t clock env fuel s = ReadLock.loop clock env fuel 0 := by
    simp only [ReadLock, if_neg hs]
  constructor
  · intro henv
    refine ⟨?_, ?_, ?_, hW, fun d f r => WriteLock_loop_round d clock env f r henv⟩
    · rw [hW, loop_abort_iff_of_round
        (WriteLock.loop (((t <<< 32) % 2 ^ 64) &&& kWriteOwnerThreadMask) clock env) clock
        (fun r => env (r * kMaxSpinCount + (kMaxSpinCount - 1)))
        (fun r => rfl) (fun f r => WriteLock_loop_round _ clock env f r henv) fuel 0]
      constructor
      · rintro ⟨m, _, h2, h3⟩
        exact ⟨m, by omega, h3⟩
      · rintro ⟨m, h2, h3⟩
        exact ⟨m, Nat.zero_le m, by omega, h3⟩
    · intro hc
      rw [hW]
      exact WriteLock_loop_spinning _ clock env henv fuel 0 (fun q _ h2 => hc q (by omega))
    · intro s' c
      rw [hW]
      exact WriteLock_loop_never_ok _ clock env henv fuel 0 s' c
  · intro henv
    refine ⟨?_, ?_, ?_, hR, fun f r => ReadLock_loop_round clock env f r henv⟩
    · rw [hR, loop_abort_iff_of_round (ReadLock.loop clock env) clock
        (fun r => env (2 * (r * kMaxSpinCount + (kMaxSpinCount - 1)) + 1))
        (fun r => rfl) (fun f r => ReadLock_loop_round clock env f r henv) fuel 0]
      constructor
      · rintro ⟨m, _, h2, h3⟩
        exact ⟨m, by omega, h3⟩
      · rintro ⟨m, h2, h3⟩
        exact ⟨m, Nat.zero_le m, by omega, h3⟩
    · intro hc
      rw [hR]
      exact ReadLock_loop_spinning clock env henv fuel 0 (fun q _ h2 => hc q (by omega))
    · intro s' c
      rw [hR]
      exact ReadLock_loop_never_ok clock env henv fuel 0 s' c

/-- C9 (amended) for thread `2` on a lock held by thread `1`, with the interval `9999` after
round `0` and `10000` after round `1`: the call terminates the program within two rounds. -/
theorem C9_acquisition_timeout_witness :
    (2 : Nat) ≠ lockOwnerID ({ _lockState := 2 ^ 32, _writeCnt := 1 } : RWLock)._lockState
      ∧ (∀ i : Nat, ((fun _ => { _lockState := 2 ^ 32, _writeCnt := 1 }) i : RWLock)._lockState
          ≠ kEmptyState)
      ∧ ((∃ s', WriteLock 2 (fun r => 9999 + r)
              (fun _ => { _lockState := 2 ^ 32, _writeCnt := 1 }) 2
              { _lockState := 2 ^ 32, _writeCnt := 1 }
            = some (Outcome.abort Violation.AcquisitionTimeout s'))
          ↔ ∃ m, m < 2 ∧ kMaxTimeWait ≤ (fun r => 9999 + r) m) :=
  ⟨by show (2 : Nat) ≠ lockOwnerID (2 ^ 32); rw [lockOwnerID_eq]; norm_num,
    fun _ => by simp [kEmptyState],
    ((C9_acquisition_timeout 2 { _lockState := 2 ^ 32, _writeCnt := 1 }
      (by show (2 : Nat) ≠ lockOwnerID (2 ^ 32); rw [lockOwnerID_eq]; norm_num)
      (fun r => 9999 + r) (fun _ => { _lockState := 2 ^ 32, _writeCnt := 1 }) 2).1
      (fun _ => by simp [kEmptyState])).1⟩

/-! ## The reader count and the owner field -/

/-- C10, as stated, fails at the largest shared count: on the state word with owner field `0`
and shared count `2 ^ 32 - 1` the compare-and-swap of `ReadLock` succeeds and stores the word
`2 ^ 32`, whose owner field is `1` and whose shared count is `0`. -/
theorem C10_counterexample_full_count :
    lockOwnerID 0xFFFFFFFF = 0 ∧ sharedCount 0xFFFFFFFF = 2 ^ 32 - 1
      ∧ ReadLock.attempt 0xFFFFFFFF 0xFFFFFFFF = (true, 2 ^ 32)
      ∧ lockOwnerID (2 ^ 32) = 1 ∧ sharedCount (2 ^ 32) = 0
      ∧ ReadLock 5 (fun _ => 0) (fun _ => { _lockState := 0xFFFFFFFF, _writeCnt := 0 }) 1
            { _lockState := 0xFFFFFFFF, _writeCnt := 0 }
          = some (Outcome.ok { _lockState := 2 ^ 32, _writeCnt := 0 } 1) := by
  have ho : lockOwnerID 0xFFFFFFFF = 0 := by rw [lockOwnerID_eq]; norm_num
  refine ⟨ho, ?_, ?_, ?_, ?_, ?_⟩
  · rw [sharedCount_eq]; norm_num
  · exact ReadLock_attempt_ok 0xFFFFFFFF ho (by norm_num)
  · rw [lockOwnerID_eq]; norm_num
  · rw [sharedCount_eq]; norm_num
  · exact ReadLock_fresh 5 (fun _ => 0) 0 { _lockState := 0xFFFFFFFF, _writeCnt := 0 }
      (by show (5 : Nat) ≠ lockOwnerID 0xFFFFFFFF; rw [ho]; norm_num) ho (by norm_num)

/-- C10 (amended): a reader that is not the owner never creates an owner, as long as the
shared count is below its largest value. For a 64-bit state word `w` with owner field `0` and
shared count `k < 2 ^ 32 - 1`: the compare-and-swap of `ReadLock` that loaded `w` succeeds;
every successful compare-and-swap of `ReadLock` on `w` stores the word `w + 1`, whose owner
field is `0` and whose shared count is `k + 1`; and a `ReadLock` call by a thread `t ≠ 0` that
runs alone returns that lock after one compare-and-swap. -/
theorem C10_reader_keeps_owner_zero (w k : Nat) (hw : w < 2 ^ 64) (ho : lockOwnerID w = 0)
    (hk : sharedCount w = k) (hk2 : k < 2 ^ 32 - 1) :
    ReadLock.attempt w w = (true, w + 1)
    ∧ (∀ wLoad w', ReadLock.attempt wLoad w = (true, w') →
        w' = w + 1 ∧ lockOwnerID w' = 0 ∧ sharedCount w' = k + 1)
    ∧ (∀ (t n : Nat) (clock : Nat → Nat) (fuel : Nat), t ≠ 0 →
        ReadLock t clock (fun _ => { _lockState := w, _writeCnt := n }) (fuel + 1)
            { _lockState := w, _writeCnt := n }
          = some (Outcome.ok { _lockState := w + 1, _writeCnt := n } 1)) := by
  have hpack := word_eq_pack w hw
  rw [ho, hk] at hpack
  have hwk : w = k := by omega
  have h1 : lockOwnerID (w + 1) = 0 := by rw [lockOwnerID_eq]; omega
  have h2 : sharedCount (w + 1) = k + 1 := by rw [sharedCount_eq]; omega
  refine ⟨ReadLock_attempt_ok w ho hw, ?_, ?_⟩
  · intro wLoad w' h
    have hlt := sharedCount_lt wLoad
    by_cases e : w = sharedCount wLoad
    · simp only [ReadLock.attempt, compare_exchange_strong, if_pos e] at h
      have e2 : w' = (sharedCount wLoad + 1) % 2 ^ 64 := (Prod.mk.inj h).2.symm
      have e3 : w' = w + 1 := by rw [e2, ← e]; omega
      rw [e3]
      exact ⟨rfl, h1, h2⟩
    · simp only [ReadLock.attempt, compare_exchange_strong, if_neg e] at h
      exact absurd (Prod.mk.inj h).1 (by decide)
  · intro t n clock fuel ht0
    exact ReadLock_fresh t clock fuel { _lockState := w, _writeCnt := n }
      (by show t ≠ lockOwnerID w; rw [ho]; exact ht0) ho hw

/-- C10 (amended) on the state word `7`: seven readers, no owner. -/
theorem C10_reader_keeps_owner_zero_witness :
    (7 : Nat) < 2 ^ 64 ∧ lockOwnerID 7 = 0 ∧ sharedCount 7 = 7 ∧ 7 < 2 ^ 32 - 1
      ∧ ReadLock.attempt 7 7 = (true, 7 + 1) :=
  ⟨by norm_num, by rw [lockOwnerID_eq]; norm_num, by rw [sharedCount_eq]; norm_num,
    by norm_num,
    (C10_reader_keeps_owner_zero 7 7 (by norm_num) (by rw [lockOwnerID_eq]; norm_num)
      (by rw [sharedCount_eq]; norm_num) (by norm_num)).1⟩

/-! ## One step of `WriteUnlock` -/

/-- C11: `WriteUnlock` step semantics. For a lock with shared count `0` and `_writeCnt = n`
(a 32-bit value), `WriteUnlock` returns and sets `_writeCnt` to `n - 1` as the 32-bit counter
it is (`n - 1` for `n ≥ 1`, and `2 ^ 32 - 1` for `n = 0`). If `n > 1` the state word is left
exactly as it was; if `n = 1` the state word is reset to `kEmptyState`, whose owner field and
shared count are `0`. The state word differs from the one before the call only when the
resulting `_writeCnt` is `0`. -/
theorem C11_write_unlock_step (t w n : Nat) (hc : sharedCount w = 0) (hn : n < 2 ^ 32) :
    (∃ s', WriteUnlock t { _lockState := w, _writeCnt := n } = Outcome.ok s' 0
        ∧ s'._writeCnt = (n + (2 ^ 32 - 1)) % 2 ^ 32
        ∧ (1 ≤ n → s'._writeCnt = n - 1)
        ∧ (n = 0 → s'._writeCnt = 2 ^ 32 - 1)
        ∧ (s'._lockState ≠ w → s'._writeCnt = 0 ∧ s'._lockState = kEmptyState)
        ∧ (s'._writeCnt = 0 → s'._lockState = kEmptyState))
    ∧ (1 < n → WriteUnlock t { _lockState := w, _writeCnt := n }
        = Outcome.ok { _lockState := w, _writeCnt := n - 1 } 0)
    ∧ (n = 1 → WriteUnlock t { _lockState := w, _writeCnt := n }
        = Outcome.ok { _lockState := kEmptyState, _writeCnt := 0 } 0)
    ∧ lockOwnerID kEmptyState = 0 ∧ sharedCount kEmptyState = 0 := by
  refine ⟨?_, ?_, ?_, ?_, ?_⟩
  · by_cases h2 : 0 = (n + (2 ^ 32 - 1)) % 2 ^ 32
    · refine ⟨{ _lockState := kEmptyState, _writeCnt := (n + (2 ^ 32 - 1)) % 2 ^ 32 }, ?_, rfl,
        ?_, ?_, ?_, ?_⟩
      · simp only [WriteUnlock, hc, ne_eq, not_true_eq_false, if_false, if_pos h2]
      · intro h1
        show (n + (2 ^ 32 - 1)) % 2 ^ 32 = n - 1
        omega
      · intro h0
        show (n + (2 ^ 32 - 1)) % 2 ^ 32 = 2 ^ 32 - 1
        omega
      · intro _
        exact ⟨h2.symm, rfl⟩
      · intro _
        rfl
    · refine ⟨{ _lockState := w, _writeCnt := (n + (2 ^ 32 - 1)) % 2 ^ 32 }, ?_, rfl,
        ?_, ?_, ?_, ?_⟩
      · simp only [WriteUnlock, hc, ne_eq, not_true_eq_false, if_false, if_neg h2]
      · intro h1
        show (n + (2 ^ 32 - 1)) % 2 ^ 32 = n - 1
        omega
      · intro h0
        show (n + (2 ^ 32 - 1)) % 2 ^ 32 = 2 ^ 32 - 1
        omega
      · intro h
        exact absurd rfl h
      · intro h
        exact absurd h.symm h2
  · intro h1
    exact WriteUnlock_step_down t w n hc h1 hn
  · intro h1
    rw [h1]
    exact WriteUnlock_last t w hc
  · rw [lockOwnerID_eq]; rfl
  · rw [sharedCount_eq]; rfl

/-- C11 for a lock held by thread `1` at depth `2`: a partial release. -/
theorem C11_write_unlock_step_witness :
    sharedCount (2 ^ 32) = 0 ∧ 2 < 2 ^ 32
      ∧ ((1 : Nat) < 2 → WriteUnlock 1 { _lockState := 2 ^ 32, _writeCnt := 2 }
          = Outcome.ok { _lockState := 2 ^ 32, _writeCnt := 2 - 1 } 0) :=
  ⟨by rw [sharedCount_eq]; norm_num, by norm_num,
    (C11_write_unlock_step 1 (2 ^ 32) 2 (by rw [sharedCount_eq]; norm_num) (by norm_num)).2.1⟩

/-! ## The thread identity `0` and the unmatched `WriteUnlock` -/

/-- C12: sentinel collision. A thread whose identity is `0`, the default of `tls_threadID`,
is taken for the owner of every lock without owner: for every state word with owner field `0`,
whatever its shared count, `WriteLock` called with `tls_threadID = 0` returns for any clock,
any other threads and any fuel, makes no compare-and-swap, increments `_writeCnt` (as the
32-bit counter it is) and leaves the state word unchanged. -/
theorem C12_sentinel_collision (w n : Nat) (ho : lockOwnerID w = 0) (clock : Nat → Nat)
    (env : Nat → RWLock) (fuel : Nat) :
    WriteLock 0 clock env fuel { _lockState := w, _writeCnt := n }
        = some (Outcome.ok { _lockState := w, _writeCnt := (n + 1) % 2 ^ 32 } 0)
    ∧ (n + 1 < 2 ^ 32 →
        WriteLock 0 clock env fuel { _lockState := w, _writeCnt := n }
          = some (Outcome.ok { _lockState := w, _writeCnt := n + 1 } 0)) := by
  have h := WriteLock_owner 0 clock env fuel { _lockState := w, _writeCnt := n }
    (by show 0 = lockOwnerID w; rw [ho])
  refine ⟨h, fun hlt => ?_⟩
  rw [h, Nat.mod_eq_of_lt hlt]

/-- C12 on the state word `3` (three readers, no owner) at fuel `0`. -/
theorem C12_sentinel_collision_witness :
    lockOwnerID 3 = 0
      ∧ WriteLock 0 (fun _ => 0) (fun _ => empty) 0 { _lockState := 3, _writeCnt := 0 }
          = some (Outcome.ok { _lockState := 3, _writeCnt := (0 + 1) % 2 ^ 32 } 0) :=
  ⟨by rw [lockOwnerID_eq]; norm_num,
    (C12_sentinel_collision 3 0 (by rw [lockOwnerID_eq]; norm_num) (fun _ => 0)
      (fun _ => empty) 0).1⟩

/-- C13: unchecked underflow. `WriteUnlock` on the empty lock, by any thread, flags no
violation: it returns, `_writeCnt` wraps around from `0` to `2 ^ 32 - 1`, and the state word
stays `0`. -/
theorem C13_write_unlock_underflow (t : Nat) :
    WriteUnlock t empty = Outcome.ok { _lockState := 0, _writeCnt := 2 ^ 32 - 1 } 0
      ∧ empty._lockState = 0 ∧ empty._writeCnt = 0
      ∧ ∀ v s', WriteUnlock t empty ≠ Outcome.abort v s' := by
  have hc : sharedCount empty._lockState = 0 := by rw [sharedCount_eq]; rfl
  have h1 : (empty._writeCnt + (2 ^ 32 - 1)) % 2 ^ 32 = 2 ^ 32 - 1 := by
    show (0 + (2 ^ 32 - 1)) % 2 ^ 32 = 2 ^ 32 - 1
    norm_num
  have h2 : ¬ (0 = 2 ^ 32 - 1) := by norm_num
  have h : WriteUnlock t empty = Outcome.ok { _lockState := 0, _writeCnt := 2 ^ 32 - 1 } 0 := by
    simp only [WriteUnlock, hc, h1, ne_eq, not_true_eq_false, if_false, if_neg h2]
    rfl
  refine ⟨h, rfl, rfl, ?_⟩
  intro v s' e
  rw [h] at e
  cases e

/-! ## Owner field and write count -/

/-- C14: owner/depth consistency is an invariant of disciplined use. The predicate
"owner field `0` if and only if `_writeCnt = 0`" holds for the empty lock, and for a thread
`t ≠ 0` it is kept by every call that runs alone and returns, from a lock with
`_writeCnt < 2 ^ 32 - 1` and shared count `< 2 ^ 32 - 1` that satisfies it: by `WriteLock`
and `ReadLock`, by `WriteUnlock` when the owner field is not `0`, and by `ReadUnlock` when
the shared count is positive. Consequently a compare-and-swap of `WriteLock` that succeeds
finds `_writeCnt = 0`. -/
theorem C14_owner_depth_invariant (t : Nat) (ht0 : t ≠ 0) (ht : t < 2 ^ 32) (s : RWLock)
    (hw : s._lockState < 2 ^ 64) (hn : s._writeCnt < 2 ^ 32 - 1)
    (hsc : sharedCount s._lockState < 2 ^ 32 - 1) (hinv : ownerDepthConsistent s)
    (clock : Nat → Nat) (fuel : Nat) :
    ownerDepthConsistent empty
    ∧ (∀ s' c, step clock fuel (Op.WriteLock t) s = some (Outcome.ok s' c) →
        ownerDepthConsistent s')
    ∧ (lockOwnerID s._lockState ≠ 0 →
        ∀ s' c, step clock fuel (Op.WriteUnlock t) s = some (Outcome.ok s' c) →
          ownerDepthConsistent s')
    ∧ (∀ s' c, step clock fuel (Op.ReadLock t) s = some (Outcome.ok s' c) →
        ownerDepthConsistent s')
    ∧ (0 < sharedCount s._lockState →
        ∀ s' c, step clock fuel (Op.ReadUnlock t) s = some (Outcome.ok s' c) →
          ownerDepthConsistent s')
    ∧ (∀ d s', WriteLock.attempt d s = (true, s') → s._writeCnt = 0) := by
  obtain ⟨w, n⟩ := s
  simp only at hw hn hsc
  have hinv' : lockOwnerID w = 0 ↔ n = 0 := hinv
  have hempty : ownerDepthConsistent empty := by
    show lockOwnerID kEmptyState = 0 ↔ (0 : Nat) = 0
    rw [lockOwnerID_eq]
    simp [kEmptyState]
  have hsc' : w % 2 ^ 32 < 2 ^ 32 - 1 := by rw [← sharedCount_eq]; exact hsc
  refine ⟨hempty, ?_, ?_, ?_, ?_, ?_⟩
  · intro s' c h
    simp only [step] at h
    by_cases hto : t = lockOwnerID w
    · rw [WriteLock_owner t clock _ fuel { _lockState := w, _writeCnt := n } hto] at h
      cases h
      show lockOwnerID w = 0 ↔ (n + 1) % 2 ^ 32 = 0
      have h1 : lockOwnerID w ≠ 0 := by rw [← hto]; exact ht0
      have h2 : (n + 1) % 2 ^ 32 ≠ 0 := by omega
      exact ⟨fun e => absurd e h1, fun e => absurd e h2⟩
    · by_cases hwe : w = kEmptyState
      · cases fuel with
        | zero =>
          simp only [WriteLock, if_neg hto, WriteLock.loop] at h
          cases h
        | succ f =>
          rw [WriteLock_fresh t ht clock _ f { _lockState := w, _writeCnt := n } hto hwe] at h
          cases h
          show lockOwnerID (t * 2 ^ 32) = 0 ↔ (n + 1) % 2 ^ 32 = 0
          have h1 : lockOwnerID (t * 2 ^ 32) ≠ 0 := by
            have := lockOwnerID_pack t 0 ht (by norm_num)
            rw [Nat.add_zero] at this
            rw [this]; exact ht0
          have h2 : (n + 1) % 2 ^ 32 ≠ 0 := by omega
          exact ⟨fun e => absurd e h1, fun e => absurd e h2⟩
      · simp only [WriteLock, if_neg hto] at h
        exact absurd h (WriteLock_loop_never_ok _ clock
          (fun _ => ({ _lockState := w, _writeCnt := n } : RWLock)) (fun _ => hwe) fuel 0 s' c)
  · intro ho s' c h
    simp only [step] at h
    have hn0 : n ≠ 0 := fun e => ho (hinv'.2 e)
    by_cases hc : sharedCount w = 0
    · by_cases h1 : n = 1
      · subst h1
        rw [WriteUnlock_last t w hc] at h
        cases h
        exact hempty
      · rw [WriteUnlock_step_down t w n hc (by omega) (by omega)] at h
        cases h
        show lockOwnerID w = 0 ↔ n - 1 = 0
        have h2 : n - 1 ≠ 0 := by omega
        exact ⟨fun e => absurd e ho, fun e => absurd e h2⟩
    · have h2 : 0 ≠ sharedCount w := fun e => hc e.symm
      simp only [WriteUnlock, if_pos h2] at h
      cases h
  · intro s' c h
    simp only [step] at h
    by_cases hto : t = lockOwnerID w
    · rw [ReadLock_owner t clock _ fuel { _lockState := w, _writeCnt := n } hto] at h
      cases h
      show lockOwnerID ((w + 1) % 2 ^ 64) = 0 ↔ n = 0
      have e : lockOwnerID ((w + 1) % 2 ^ 64) = lockOwnerID w := by
        rw [lockOwnerID_eq, lockOwnerID_eq]; omega
      rw [e]
      exact hinv'
    · by_cases ho : lockOwnerID w = 0
      · cases fuel with
        | zero =>
          simp only [ReadLock, if_neg hto, ReadLock.loop] at h
          cases h
        | succ f =>
          rw [ReadLock_fresh t clock f { _lockState := w, _writeCnt := n } hto ho hw] at h
          cases h
          show lockOwnerID (w + 1) = 0 ↔ n = 0
          have e : lockOwnerID (w + 1) = lockOwnerID w := by
            rw [lockOwnerID_eq, lockOwnerID_eq]; omega
          rw [e]
          exact hinv'
      · simp only [ReadLock, if_neg hto] at h
        exact absurd h (ReadLock_loop_never_ok clock
          (fun _ => ({ _lockState := w, _writeCnt := n } : RWLock)) (fun _ => ho) fuel 0 s' c)
  · intro hpos s' c h
    simp only [step] at h
    rw [ReadUnlock_down t w n hw (Nat.ne_of_gt hpos)] at h
    cases h
    show lockOwnerID (w - 1) = 0 ↔ n = 0
    have hp : 0 < w % 2 ^ 32 := by rw [← sharedCount_eq]; exact hpos
    have e : lockOwnerID (w - 1) = lockOwnerID w := by
      rw [lockOwnerID_eq, lockOwnerID_eq]; omega
    rw [e]
    exact hinv'
  · intro d s' h
    show n = 0
    by_cases hwe : w = kEmptyState
    · apply hinv'.1
      rw [hwe, lockOwnerID_eq]
      rfl
    · simp only [WriteLock.attempt, compare_exchange_strong, if_neg hwe] at h
      exact absurd (Prod.mk.inj h).1 (by decide)

/-- C14 for thread `1` taking the empty lock: the call returns and the lock it leaves has
owner field `1` and `_writeCnt = 1`. -/
theorem C14_owner_depth_invariant_witness :
    (1 : Nat) ≠ 0 ∧ (1 : Nat) < 2 ^ 32 ∧ empty._lockState < 2 ^ 64
      ∧ empty._writeCnt < 2 ^ 32 - 1 ∧ sharedCount empty._lockState < 2 ^ 32 - 1
      ∧ ownerDepthConsistent empty
      ∧ step (fun _ => 0) 1 (Op.WriteLock 1) empty
          = some (Outcome.ok { _lockState := 1 * 2 ^ 32, _writeCnt := (0 + 1) % 2 ^ 32 } 1)
      ∧ ownerDepthConsistent { _lockState := 1 * 2 ^ 32, _writeCnt := (0 + 1) % 2 ^ 32 } :=
  have hw : empty._lockState < 2 ^ 64 := by show (0 : Nat) < 2 ^ 64; norm_num
  have hn : empty._writeCnt < 2 ^ 32 - 1 := by show (0 : Nat) < 2 ^ 32 - 1; norm_num
  have hsc : sharedCount empty._lockState < 2 ^ 32 - 1 := by
    rw [sharedCount_eq]; show 0 % 2 ^ 32 < 2 ^ 32 - 1; norm_num
  have hinv : ownerDepthConsistent empty := by
    show lockOwnerID kEmptyState = 0 ↔ (0 : Nat) = 0
    rw [lockOwnerID_eq]; simp [kEmptyState]
  have hstep := step_WriteLock_empty (fun _ => 0) 0 1 (by norm_num) (by norm_num) 0
  ⟨by norm_num, by norm_num, hw, hn, hsc, hinv, hstep,
    (C14_owner_depth_invariant 1 (by norm_num) (by norm_num) empty hw hn hsc hinv
      (fun _ => 0) 1).2.1 _ 1 hstep⟩

/-! ## After an unmatched `WriteUnlock` -/

/-- C15: a stray `WriteUnlock` permanently breaks balance. One `WriteUnlock` on the empty
lock leaves state word `0` and `_writeCnt = 2 ^ 32 - 1`. From there, for a thread `t ≠ 0`,
`WriteLock` by `t` followed by `WriteUnlock` by `t` both return, and the lock they leave is
not empty: its owner field is `t`, its shared count `0` and `_writeCnt` is `2 ^ 32 - 1`. -/
theorem C15_stray_unlock_breaks_balance (t : Nat) (ht0 : t ≠ 0) (ht : t < 2 ^ 32)
    (clock : Nat → Nat) (fuel : Nat) (hfuel : 0 < fuel) :
    step clock fuel (Op.WriteUnlock t) empty
        = some (Outcome.ok { _lockState := 0, _writeCnt := 2 ^ 32 - 1 } 0)
    ∧ step clock fuel (Op.WriteLock t) { _lockState := 0, _writeCnt := 2 ^ 32 - 1 }
        = some (Outcome.ok { _lockState := t * 2 ^ 32, _writeCnt := 0 } 1)
    ∧ ∃ s : RWLock,
        run clock fuel [Op.WriteLock t, Op.WriteUnlock t]
            { _lockState := 0, _writeCnt := 2 ^ 32 - 1 } 0
          = some (Outcome.ok s 1)
        ∧ lockOwnerID s._lockState = t ∧ sharedCount s._lockState = 0
        ∧ s._writeCnt = 2 ^ 32 - 1 ∧ s ≠ empty := by
  obtain ⟨f, rfl⟩ : ∃ f, fuel = f + 1 := ⟨fuel - 1, by omega⟩
  have ho : lockOwnerID (t * 2 ^ 32) = t := by
    simpa using lockOwnerID_pack t 0 ht (by norm_num)
  have hc : sharedCount (t * 2 ^ 32) = 0 := by
    simpa using sharedCount_pack t 0 (by norm_num)
  have hc0 : sharedCount 0 = 0 := by rw [sharedCount_eq]; exact Nat.zero_mod _
  have hlock : step clock (f + 1) (Op.WriteLock t) { _lockState := 0, _writeCnt := 2 ^ 32 - 1 }
      = some (Outcome.ok { _lockState := t * 2 ^ 32, _writeCnt := 0 } 1) := by
    have h := step_WriteLock_empty clock f t ht0 ht (2 ^ 32 - 1)
    have e : (2 ^ 32 - 1 + 1) % 2 ^ 32 = 0 := by norm_num
    rw [e] at h
    exact h
  have hunlock : step clock (f + 1) (Op.WriteUnlock t) { _lockState := t * 2 ^ 32, _writeCnt := 0 }
      = some (Outcome.ok { _lockState := t * 2 ^ 32, _writeCnt := 2 ^ 32 - 1 } 0) := by
    simp only [step]
    rw [WriteUnlock_wrap t (t * 2 ^ 32) hc]
  refine ⟨?_, hlock, { _lockState := t * 2 ^ 32, _writeCnt := 2 ^ 32 - 1 }, ?_, ho, hc, rfl, ?_⟩
  · simp only [step]
    exact congrArg some (WriteUnlock_wrap t 0 hc0)
  · rw [run_cons_ok _ _ _ _ _ _ _ _ hlock, run_cons_ok _ _ _ _ _ _ _ _ hunlock]
    rfl
  · intro e
    have e2 := congrArg RWLock._writeCnt e
    simp only [empty] at e2
    omega

/-- C15 for thread `1`. -/
theorem C15_stray_unlock_breaks_balance_witness :
    (1 : Nat) ≠ 0 ∧ (1 : Nat) < 2 ^ 32 ∧ 0 < 1
      ∧ step (fun _ => 0) 1 (Op.WriteLock 1) { _lockState := 0, _writeCnt := 2 ^ 32 - 1 }
          = some (Outcome.ok { _lockState := 1 * 2 ^ 32, _writeCnt := 0 } 1) :=
  ⟨by norm_num, by norm_num, by norm_num,
    (C15_stray_unlock_breaks_balance 1 (by norm_num) (by norm_num) (fun _ => 0) 1
      (by norm_num)).2.1⟩

/-! ## What the unlock calls do not check -/

/-- C16: `WriteUnlock` does not check ownership. Its outcome is the same for every calling
thread identity, so it depends on the lock alone; in particular `WriteUnlock` called by
`B ≠ A` on a lock with owner field `A ≠ 0`, shared count `0` and `_writeCnt = 1` returns and
leaves the empty lock. -/
theorem C16_write_unlock_ignores_caller (A B w : Nat) (hA0 : A ≠ 0) (hAB : B ≠ A)
    (ho : lockOwnerID w = A) (hc : sharedCount w = 0) :
    (∀ (t u : Nat) (s : RWLock), WriteUnlock t s = WriteUnlock u s)
    ∧ WriteUnlock B { _lockState := w, _writeCnt := 1 } = Outcome.ok empty 0
    ∧ WriteUnlock A { _lockState := w, _writeCnt := 1 } = Outcome.ok empty 0 :=
  ⟨fun _ _ _ => rfl, WriteUnlock_last B w hc, WriteUnlock_last A w hc⟩

/-- C16 for the owner `1` and the caller `2`. -/
theorem C16_write_unlock_ignores_caller_witness :
    (1 : Nat) ≠ 0 ∧ (2 : Nat) ≠ 1 ∧ lockOwnerID (2 ^ 32) = 1 ∧ sharedCount (2 ^ 32) = 0
      ∧ WriteUnlock 2 { _lockState := 2 ^ 32, _writeCnt := 1 } = Outcome.ok empty 0 :=
  ⟨by norm_num, by norm_num, by rw [lockOwnerID_eq]; norm_num,
    by rw [sharedCount_eq]; norm_num,
    (C16_write_unlock_ignores_caller 1 2 (2 ^ 32) (by norm_num) (by norm_num)
      (by rw [lockOwnerID_eq]; norm_num) (by rw [sharedCount_eq]; norm_num)).2.1⟩

/-- C17: `ReadUnlock` decrements before it checks. For every 64-bit state word `w` the lock
at the end of `ReadUnlock` holds `(w - 1) mod 2 ^ 64`, whether the call returned or flagged
"ReadUnlock Under Zero", and `_writeCnt` is untouched. When the shared count of `w` is `0` the
call flags `ReadUnderflow` and the word has already become the one with owner field
`(o - 1) mod 2 ^ 32`, where `o` is the owner field of `w`, and shared count `2 ^ 32 - 1`,
which differs from `w`; from the empty lock this is the all-ones word. -/
theorem C17_read_unlock_decrements_first (t : Nat) (s : RWLock) (hw : s._lockState < 2 ^ 64) :
    (ReadUnlock t s).lock._lockState = (s._lockState + (2 ^ 64 - 1)) % 2 ^ 64
    ∧ (ReadUnlock t s).lock._writeCnt = s._writeCnt
    ∧ (sharedCount s._lockState = 0 →
        ∃ s', ReadUnlock t s = Outcome.abort Violation.ReadUnderflow s'
          ∧ lockOwnerID s'._lockState = (lockOwnerID s._lockState + (2 ^ 32 - 1)) % 2 ^ 32
          ∧ sharedCount s'._lockState = 2 ^ 32 - 1
          ∧ s'._lockState ≠ s._lockState)
    ∧ ReadUnlock t empty
        = Outcome.abort Violation.ReadUnderflow
            { _lockState := 0xFFFFFFFFFFFFFFFF, _writeCnt := 0 } := by
  obtain ⟨w, n⟩ := s
  simp only at hw
  have h3 : ∀ x : Nat, x &&& kReadSharedCountMask = sharedCount x := fun _ => rfl
  have hm : (2 ^ 64 - 1 % 2 ^ 64 : Nat) = 2 ^ 64 - 1 := by norm_num
  refine ⟨?_, ?_, ?_, ?_⟩
  · by_cases h : 0 = sharedCount w
    · simp only [ReadUnlock, fetch_sub, h3, if_pos h, Outcome.lock, hm]
    · simp only [ReadUnlock, fetch_sub, h3, if_neg h, Outcome.lock, hm]
  · by_cases h : 0 = sharedCount w
    · simp only [ReadUnlock, fetch_sub, h3, if_pos h, Outcome.lock]
    · simp only [ReadUnlock, fetch_sub, h3, if_neg h, Outcome.lock]
  · intro h
    have hz : w % 2 ^ 32 = 0 := by rw [← sharedCount_eq]; exact h
    refine ⟨{ _lockState := (w + (2 ^ 64 - 1)) % 2 ^ 64, _writeCnt := n }, ?_, ?_, ?_, ?_⟩
    · simp only [ReadUnlock, fetch_sub, h3, if_pos h.symm, hm]
    · show lockOwnerID ((w + (2 ^ 64 - 1)) % 2 ^ 64) = (lockOwnerID w + (2 ^ 32 - 1)) % 2 ^ 32
      rw [lockOwnerID_eq, lockOwnerID_eq]
      omega
    · show sharedCount ((w + (2 ^ 64 - 1)) % 2 ^ 64) = 2 ^ 32 - 1
      rw [sharedCount_eq]
      omega
    · show (w + (2 ^ 64 - 1)) % 2 ^ 64 ≠ w
      omega
  · have h0 : (0 : Nat) = sharedCount empty._lockState := by rw [sharedCount_eq]; rfl
    have e : (empty._lockState + (2 ^ 64 - 1)) % 2 ^ 64 = 0xFFFFFFFFFFFFFFFF := by
      show (0 + (2 ^ 64 - 1)) % 2 ^ 64 = 0xFFFFFFFFFFFFFFFF
      norm_num
    simp only [ReadUnlock, fetch_sub, h3, if_pos h0, hm, e]
    rfl

/-- C17 on the lock held by thread `1` with no read lock: the word `2 ^ 32` has become
`2 ^ 32 - 1` when the underflow is flagged. -/
theorem C17_read_unlock_decrements_first_witness :
    ({ _lockState := 2 ^ 32, _writeCnt := 1 } : RWLock)._lockState < 2 ^ 64
      ∧ (ReadUnlock 1 { _lockState := 2 ^ 32, _writeCnt := 1 }).lock._lockState
          = (({ _lockState := 2 ^ 32, _writeCnt := 1 } : RWLock)._lockState + (2 ^ 64 - 1))
            % 2 ^ 64 :=
  ⟨by show (2 ^ 32 : Nat) < 2 ^ 64; norm_num,
    (C17_read_unlock_decrements_first 1 { _lockState := 2 ^ 32, _writeCnt := 1 }
      (by show (2 ^ 32 : Nat) < 2 ^ 64; norm_num)).1⟩

end RWLock
